import Mathlib

/-!
Verification of the CortexLTM memory-consolidation pipeline.

The definitions below are a shallow embedding of `cortexltm/messages.py`,
`cortexltm/master_memory.py`, `cortexltm/summaries.py` and `cortexltm/api.py`.
Python strings are modelled as Lean `String` (ASCII assumption for
case-folding, matching the English phrase lists in the source); Python
`str.strip` / `str.lower` / `in` / slicing are modelled character-wise below.
Database tables are modelled as lists of rows with explicit next-id counters;
SQL `now()` and ISO timestamps are modelled as `Nat` instants.  The embedding
service (`embeddings.embed_text`, which can raise) is modelled as a function
`String → Option (List ℚ)` with `none` for a raised exception, and the
completion service (`llm.summarize_update`) as
`Option String → List String → Option String` likewise.
-/

namespace CortexLTM

/-! ### Python string primitives (character-list level) -/

/-- Whitespace characters removed by Python `str.strip` (ASCII). -/
def isWsChar (c : Char) : Bool :=
  c == ' ' || c == '\t' || c == '\n' || c == '\r' || c == '\x0b' || c == '\x0c'

/-- Leading- and trailing-whitespace trim on character lists (`str.strip`). -/
def trimChars (l : List Char) : List Char :=
  ((l.dropWhile isWsChar).reverse.dropWhile isWsChar).reverse

/-- Trailing-whitespace trim on character lists (`str.rstrip`). -/
def rtrimChars (l : List Char) : List Char :=
  (l.reverse.dropWhile isWsChar).reverse

/-- Character-wise lowercase (`str.lower`, ASCII). -/
def lowerChars (l : List Char) : List Char := l.map Char.toLower

/-- Character-wise uppercase (`str.upper`, ASCII). -/
def upperChars (l : List Char) : List Char := l.map Char.toUpper

/-- `needle` is a leading segment of `hay`. -/
def charsStartsWith : List Char → List Char → Bool
  | _, [] => true
  | [], _ :: _ => false
  | h :: hs, n :: ns => h == n && charsStartsWith hs ns

/-- `needle` occurs contiguously inside `hay` (Python `needle in hay`). -/
def charsContainsSub : List Char → List Char → Bool
  | [], needle => needle.isEmpty
  | h :: hs, needle => charsStartsWith (h :: hs) needle || charsContainsSub hs needle

/-- Python `s.strip()`. -/
def pyStrip (s : String) : String := ⟨trimChars s.data⟩

/-- Python `s.rstrip()`. -/
def pyRstrip (s : String) : String := ⟨rtrimChars s.data⟩

/-- Python `s.lower()`. -/
def pyLower (s : String) : String := ⟨lowerChars s.data⟩

/-- Python `s.upper()`. -/
def pyUpper (s : String) : String := ⟨upperChars s.data⟩

/-- Python `needle in hay` on strings. -/
def strIn (needle hay : String) : Bool := charsContainsSub hay.data needle.data

/-- Python `s.replace("\n", " ")`. -/
def pyReplaceNl (s : String) : String :=
  ⟨s.data.map (fun c => if c == '\n' then ' ' else c)⟩

/-- Python `s[:n] + suffix if len(s) > n else s`. -/
def pyTruncate (s : String) (n : Nat) (suffix : String) : String :=
  if n < s.data.length then ⟨s.data.take n⟩ ++ suffix else s

/-! ### Importance scorer (`messages._score_importance`) -/

/-- The trivial-chatter set of `_score_importance` (and of `is_meaningful_turn`). -/
def trivialChatter : List String :=
  ["ok", "okay", "k", "kk", "lol", "lmao", "bet", "nice", "cool", "word",
   "yup", "yeah", "nah", "thanks", "thx", "ty", "cya", "bye", "goodbye",
   "hi", "hello", "hey", "yo", "sup", "what\x27s up", "whats up"]

/-- Identity/profile phrases scoring 5 in `_score_importance`. -/
def highPhrases : List String :=
  ["my name is", "call me ", "i am ", "i\x27m ", "my email", "my phone",
   "my address", "my birthday", "remember that", "remember this"]

/-- Plans/constraints/commitments phrases scoring 3 in `_score_importance`. -/
def mediumPhrases : List String :=
  ["i need to", "i want to", "we need to", "we should", "let\x27s", "deadline",
   "plan", "goal is", "do not", "don\x27t", "never ", "avoid ", "only ",
   "must ", "cannot ", "can\x27t "]

/-- Preference phrases scoring 1 in `_score_importance`. -/
def lowPhrases : List String :=
  ["i like", "i love", "i hate", "i prefer", "my favorite", "i don\x27t like",
   "i dislike"]

/-- `messages._score_importance(actor, content)`. -/
def scoreImportance (actor content : String) : Int :=
  if actor ≠ "user" then 0
  else
    let t := pyLower (pyStrip content)
    if t = "" then 0
    else if decide (t ∈ trivialChatter) then 0
    else if highPhrases.any (fun p => strIn p t) then 5
    else if mediumPhrases.any (fun p => strIn p t) then 3
    else if lowPhrases.any (fun p => strIn p t) then 1
    else if 120 ≤ t.length then 1
    else 0

/-! ### Event ingestion (`messages.add_event`)

Embeddings are 1536-dimensional float vectors in the source; they are modelled
as `List ℚ`.  The outcome of `embeddings.embed_text` (which can raise) is an
explicit `Option (List ℚ)` argument: `none` models a raised exception, which
`add_event` catches and turns into a row without embedding. -/

/-- An embedding vector. -/
abbrev Emb := List ℚ

/-- `messages.PROJECT_MEMORY_CUES`. -/
def projectMemoryCues : List (String × String) :=
  [("project", "PROJECTS"), ("learning", "PROJECTS"), ("lesson", "PROJECTS"),
   ("plan", "PROJECTS"), ("vacation", "PROJECTS"), ("working on", "PROJECTS"),
   ("projects", "PROJECTS"), ("learn", "PROJECTS"), ("language", "PROJECTS"),
   ("coding", "PROJECTS"), ("memory layer", "LONG_RUNNING_CONTEXT"),
   ("memory specific", "LONG_RUNNING_CONTEXT")]

/-- `messages._project_memory_bucket(content)`: first cue whose phrase occurs
in the lowercased content. -/
def projectMemoryBucket (content : String) : Option String :=
  (projectMemoryCues.find? (fun pc => strIn pc.1 (pyLower content))).map (·.2)

/-- The observable outcome of one `add_event` call: the stored row's score and
embedding, and which side effects were dispatched. -/
structure AddEventOutcome where
  storedScore : Int
  embedUsed : Bool
  storedEmbedding : Option Emb
  captureDispatched : Bool
  extractorDispatched : Bool
  summaryDispatched : Bool

/-- `messages.add_event`: auto-scores when the caller passes 0, forces
embedding at score ≥ 5, and dispatches the side-effect tasks
(`auto_event_capture`, `master_memory_extractor`, `summary_update`). -/
def addEvent (actor content : String) (importanceScore : Int) (embedArg : Bool)
    (embedResult : Option Emb) : AddEventOutcome :=
  let score := if importanceScore = 0 then scoreImportance actor content
               else importanceScore
  let embed := if 5 ≤ score then true else embedArg
  let emb := if embed then embedResult else none
  let projectBucket := projectMemoryBucket content
  { storedScore := score
    embedUsed := embed
    storedEmbedding := emb
    captureDispatched := actor == "user" && (decide (5 ≤ score) || projectBucket.isSome)
    extractorDispatched := actor == "user" && decide (5 ≤ score)
    summaryDispatched := actor == "assistant" }

/-! ### Master memory (`master_memory.py`)

The `ltm_master_items` table is modelled as a list of rows plus a fresh-id
counter; uuids are modelled as `Nat` ids, SQL `now()` as a `Nat` instant,
jsonb values as association lists with `||` as right-biased merge. -/

/-- `master_memory.BUCKETS`. -/
def BUCKETS : List String :=
  ["PROFILE", "PREFERENCES", "CONSTRAINTS", "COMMUNICATION_STYLE",
   "LONG_RUNNING_CONTEXT", "GOALS", "PROJECTS", "NEXT_ACTIONS", "OPEN_LOOPS"]

/-- `master_memory.STATUSES`. -/
def STATUSES : List String := ["active", "deprecated", "conflicted"]

/-- `master_memory.STABILITIES`. -/
def STABILITIES : List String := ["high", "med", "low"]

/-- `master_memory._norm_bucket`. -/
def normBucket (bucket : String) : Except String String :=
  let b := pyUpper (pyStrip bucket)
  if b ∈ BUCKETS then .ok b else .error "Invalid bucket"

/-- `master_memory._norm_status` (Python `(status or "active")`). -/
def normStatus (status : String) : Except String String :=
  let s := pyLower (pyStrip (if status = "" then "active" else status))
  if s ∈ STATUSES then .ok s else .error "Invalid status"

/-- `master_memory._norm_stability` (Python `(stability or "med")`). -/
def normStability (stability : String) : Except String String :=
  let st := pyLower (pyStrip (if stability = "" then "med" else stability))
  if st ∈ STABILITIES then .ok st else .error "Invalid stability"

/-- Clamp confidence to [0, 1] as in `upsert_master_item`. -/
def clampConf (c : ℚ) : ℚ := if c < 0 then 0 else if 1 < c then 1 else c

/-- One row of `ltm_master_items`. -/
structure MasterItem where
  id : Nat
  user_id : String
  bucket : String
  text : String
  status : String
  stability : String
  confidence : ℚ
  reinforcement_count : Nat
  last_seen_at : Nat
  last_reinforced_at : Nat
  meta : List (String × String)
  embedding : Option Emb
deriving DecidableEq

/-- The `ltm_master_items` table with a fresh-id counter. -/
structure MasterStore where
  rows : List MasterItem
  nextId : Nat
deriving DecidableEq

/-- jsonb `old || patch`: keys of `patch` win. -/
def jsonbMerge (old patch : List (String × String)) : List (String × String) :=
  old.filter (fun kv => !(patch.any (fun p => p.1 == kv.1))) ++ patch

/-- The SQL dedup predicate of `upsert_master_item`:
`user_id = %s AND bucket = %s AND lower(trim(text)) = lower(trim(%s))`. -/
def masterKeyMatches (u b t : String) (row : MasterItem) : Bool :=
  row.user_id == u && row.bucket == b &&
    pyLower (pyStrip row.text) == pyLower (pyStrip t)

/-- The UPDATE branch of `upsert_master_item` applied to the matched row:
`embedding = coalesce(new, embedding)` keeps the old vector when no new
embedding was computed. -/
def masterUpdateRow (s st : String) (conf : ℚ) (now : Nat)
    (meta : List (String × String)) (emb : Option Emb) (r : MasterItem) :
    MasterItem :=
  { r with
    status := s
    stability := st
    confidence := conf
    reinforcement_count := r.reinforcement_count + 1
    last_seen_at := now
    last_reinforced_at := now
    meta := jsonbMerge r.meta meta
    embedding := match emb with | some e => some e | none => r.embedding }

/-- `master_memory.upsert_master_item`.  `embedResult` is the outcome of
`embed_text(t)` (`none` models a raised exception, which the source catches
and stores `None`); validation errors are `Except.error` (Python
`ValueError`). -/
def upsertMasterItem (store : MasterStore) (now : Nat) (embedResult : Option Emb)
    (user_id bucket text status stability : String) (confidence : ℚ)
    (embed : Bool) (meta : List (String × String)) :
    Except String (Nat × MasterStore) :=
  if pyStrip user_id = "" then .error "upsert_master_item: user_id is required"
  else if pyStrip text = "" then .error "upsert_master_item: text is required"
  else
    match normBucket bucket with
    | .error e => .error e
    | .ok b =>
      match normStatus status with
      | .error e => .error e
      | .ok s =>
        match normStability stability with
        | .error e => .error e
        | .ok st =>
          let t := pyStrip text
          let conf := clampConf confidence
          let emb := if embed then embedResult else none
          match store.rows.find? (masterKeyMatches user_id b t) with
          | some row =>
              .ok (row.id,
                { store with
                  rows := store.rows.map (fun r =>
                    if r.id == row.id then masterUpdateRow s st conf now meta emb r
                    else r) })
          | none =>
              let newRow : MasterItem :=
                { id := store.nextId, user_id := user_id, bucket := b, text := t,
                  status := s, stability := st, confidence := conf,
                  reinforcement_count := 1, last_seen_at := now,
                  last_reinforced_at := now, meta := meta, embedding := emb }
              .ok (store.nextId,
                { rows := store.rows ++ [newRow], nextId := store.nextId + 1 })

/-- Witness data: the row inserted by the first C2 witness call. -/
def c2Row1 : MasterItem :=
  { id := 0, user_id := "u", bucket := "PROFILE", text := "I Like Tea",
    status := "active", stability := "med", confidence := 1,
    reinforcement_count := 1, last_seen_at := 10, last_reinforced_at := 10,
    meta := [], embedding := none }

/-- Witness data: the same row after the second (reinforcing) C2 witness call. -/
def c2Row2 : MasterItem :=
  { id := 0, user_id := "u", bucket := "PROFILE", text := "I Like Tea",
    status := "active", stability := "med", confidence := 1,
    reinforcement_count := 2, last_seen_at := 20, last_reinforced_at := 20,
    meta := [], embedding := none }

/-- Witness data: a pre-existing master row with a stored embedding (C3). -/
def c3Row : MasterItem :=
  { id := 5, user_id := "u", bucket := "PROFILE", text := "likes tea",
    status := "active", stability := "med", confidence := 1,
    reinforcement_count := 3, last_seen_at := 1, last_reinforced_at := 1,
    meta := [], embedding := some [1] }

/-- Witness data: the C3 row after an upsert whose embedding step failed. -/
def c3RowUpdated : MasterItem :=
  { id := 5, user_id := "u", bucket := "PROFILE", text := "likes tea",
    status := "deprecated", stability := "low", confidence := 1,
    reinforcement_count := 4, last_seen_at := 9, last_reinforced_at := 9,
    meta := [("k", "v")], embedding := some [1] }

/-! ### Cosine similarity (`summaries._cosine_similarity`)

The source computes `dot`, `na`, `nb` by one loop over `zip(a, b)` and
returns `dot / (sqrt(na) * sqrt(nb))` with `0.0` when the denominator is
falsy.  Floats are modelled as reals; the accumulator loop is transcribed
directly.  For the executable summarizer pipeline the same test
`similarity < 0.75` is implemented over ℚ (`cosineSimLtThreshold`) and proved
equivalent to the real-valued comparison (`cosineSimLtThreshold_iff`). -/

/-- Cast a rational vector to a real vector. -/
def castVec (v : List ℚ) : List ℝ := v.map Rat.cast

/-- The `for x, y in zip(a, b)` accumulator loop of `_cosine_similarity`. -/
def cosineAcc : List (ℝ × ℝ) → ℝ × ℝ × ℝ → ℝ × ℝ × ℝ
  | [], acc => acc
  | (x, y) :: rest, (dot, na, nb) => cosineAcc rest (dot + x * y, na + x * x, nb + y * y)

/-- `summaries._cosine_similarity(a, b)`: returns `0.0` when
`sqrt(na) * sqrt(nb)` is zero, else `dot / denom`. -/
noncomputable def cosineSimilarity (a b : List ℝ) : ℝ :=
  let s := cosineAcc (a.zip b) (0, 0, 0)
  let denom := Real.sqrt s.2.1 * Real.sqrt s.2.2
  if denom = 0 then 0 else s.1 / denom

/-- Squared norm of a vector (the sum `Σ x²` over the whole vector). -/
def sqNorm (v : List ℝ) : ℝ := (v.map (fun x => x * x)).sum

/-- The accumulator loop over ℚ (used by the executable summarizer model). -/
def cosineAccQ : List (ℚ × ℚ) → ℚ × ℚ × ℚ → ℚ × ℚ × ℚ
  | [], acc => acc
  | (x, y) :: rest, (dot, na, nb) => cosineAccQ rest (dot + x * y, na + x * x, nb + y * y)

/-- Decidable form of `_cosine_similarity(a, b) < 0.75` over rational
vectors: the denominator is zero iff `na = 0` or `nb = 0` (sums of squares),
in which case the similarity is `0.0 < 0.75`; otherwise for `dot ≤ 0` the
similarity is nonpositive, and for `dot > 0` the comparison squares both
sides.  `cosineSimLtThreshold_iff` proves this equal to the real-valued
comparison performed by the source. -/
def cosineSimLtThreshold (a b : List ℚ) : Bool :=
  let s := cosineAccQ (a.zip b) (0, 0, 0)
  if s.2.1 = 0 ∨ s.2.2 = 0 then true
  else if s.1 ≤ 0 then true
  else decide (16 * (s.1 * s.1) < 9 * (s.2.1 * s.2.2))

/-! ### Meaningful-turn classifier (`summaries.is_meaningful_turn`) -/

/-- The broad strong-phrase set of `is_meaningful_turn` (identity,
relationships, preferences, memory intent, commitments, constraints,
project/decision vocabulary). -/
def strongPhrases : List String :=
  ["my name is", "call me ", "i am ", "i\x27m ", "i live", "i work",
   "my email", "my phone", "my address", "my birthday",
   "her name", "his name", "their name",
   "my dog", "my cat", "my pet", "my boss", "my brother", "my sister",
   "my mother", "my mom", "my dad", "my father", "my husband", "my wife",
   "my kid", "my boyfriend", "my girlfriend", "my friend",
   "i like", "i love", "i hate", "i prefer", "my favorite", "i don\x27t like",
   "i dislike", "i usually", "i always", "i never",
   "remember",
   "i will", "i want to", "i need to", "we need to", "we should", "let\x27s",
   "let\x27s do", "we will", "next step", "goal is", "deadline", "plan",
   "do not", "don\x27t", "never ", "avoid ", "stop ", "no more", "only ",
   "use ", "build ", "implement ", "schema", "table", "sql", "api", "bug",
   "error"]

/-- `summaries.is_meaningful_turn(user_text, assistant_text)`. -/
def isMeaningfulTurn (user_text assistant_text : String) : Bool :=
  let u := pyStrip user_text
  let a := pyStrip assistant_text
  if u = "" ∧ a = "" then false
  else
    let combo := pyStrip (u ++ "\n" ++ a)
    let low_u := pyStrip (pyLower u)
    if low_u ∈ trivialChatter ∧ a.length < 80 then false
    else if combo.length < 40 then false
    else
      let u_low := pyLower u
      if strongPhrases.any (fun p => strIn p u_low) then true
      else combo.data.any Char.isAlphanum && decide (80 ≤ combo.length)

/-! ### Rolling summarizer (`summaries.py`)

The `ltm_thread_summaries` table is a list of rows plus a fresh-id counter.
`env.events` holds the thread's `ltm_events` rows in ascending `created_at`
order (the order the source's `ORDER BY created_at asc` returns);
`env.embed` / `env.llm` are the embedding and completion collaborators with
`none` modelling a raised exception; `env.now` is the current instant in
seconds.  The summary `meta` jsonb is modelled by its three keys written by
this module (`reason`, `meaningful_turns`, `last_summary_write_at`); the
update patch always carries all three, so the jsonb merge is a full
replacement.  `maybe_update_summary` returns `(some b, store)` for a normal
return of `b`, and `(none, store)` when an uncaught embedding exception
escapes after the store writes committed so far.
`_sync_master_from_active_summary` writes only to the master-memory tables
and never to `ltm_thread_summaries`, so it does not appear in this model of
the summary table. -/

/-- `summaries.MEANINGFUL_TARGET`. -/
def MEANINGFUL_TARGET : Nat := 12

/-- `summaries.FETCH_LOOKBACK`. -/
def FETCH_LOOKBACK : Nat := 120

/-- `summaries.MIN_SUMMARY_UPDATE_SECONDS`. -/
def MIN_SUMMARY_UPDATE_SECONDS : Nat := 180

/-- One `ltm_events` row (as read by the summarizer). -/
structure Ev where
  id : Nat
  created_at : Nat
  actor : String
  content : String
deriving DecidableEq

/-- One collected turn of `maybe_update_summary`'s pairing loop. -/
structure Turn where
  user_id : Nat
  assistant_id : Option Nat
  user_text : String
  assistant_text : String
deriving DecidableEq

/-- The summary-row jsonb meta keys written by `summaries.py`. -/
structure SummaryMeta where
  reason : String
  meaningful_turns : Nat
  lastWriteAt : Option Nat
deriving DecidableEq

/-- One `ltm_thread_summaries` row. -/
structure SummaryRow where
  id : Nat
  thread_id : String
  summary : String
  range_start_event_id : Option Nat
  range_end_event_id : Option Nat
  meta : SummaryMeta
  embedding : Option Emb
  is_active : Bool
deriving DecidableEq

/-- The `ltm_thread_summaries` table with a fresh-id counter. -/
structure SummStore where
  rows : List SummaryRow
  nextId : Nat
deriving DecidableEq

/-- The summarizer's collaborators and clock. -/
structure SummEnv where
  events : List Ev
  embed : String → Option Emb
  llm : Option String → List String → Option String
  now : Nat

/-- `summaries._get_active_summary` (`WHERE thread_id = %s AND is_active LIMIT 1`). -/
def getActiveSummary (store : SummStore) (tid : String) : Option SummaryRow :=
  store.rows.find? (fun r => r.thread_id == tid && r.is_active)

/-- `summaries._should_debounce_summary`: debounce when the active summary's
`last_summary_write_at` is younger than the cool-down window. -/
def shouldDebounceSummary (now : Nat) (active : Option SummaryRow) : Bool :=
  match active with
  | none => false
  | some a =>
      match a.meta.lastWriteAt with
      | none => false
      | some t => decide (now < t + MIN_SUMMARY_UPDATE_SECONDS)

/-- `summaries._fetch_events_since`: events strictly after the `created_at`
of the since-event (all events when there is none or it cannot be found),
capped at `FETCH_LOOKBACK`. -/
def fetchEventsSince (events : List Ev) (sinceId : Option Nat) : List Ev :=
  match sinceId with
  | none => events.take FETCH_LOOKBACK
  | some eid =>
      match (events.find? (fun e => e.id == eid)).map (·.created_at) with
      | none => events.take FETCH_LOOKBACK
      | some ts => (events.filter (fun e => decide (ts < e.created_at))).take FETCH_LOOKBACK

/-- The turn-collection loop of `maybe_update_summary`: walk events, pair
each user event with the next assistant event, keep meaningful turns, stop at
`MEANINGFUL_TARGET`. -/
def collectTurns : List Ev → List Turn → List Turn
  | [], acc => acc
  | e :: rest, acc =>
      if e.actor ≠ "user" then collectTurns rest acc
      else
        let aEv := rest.find? (fun x => x.actor == "assistant")
        let uTxt := e.content
        let aTxt := match aEv with | some x => x.content | none => ""
        if isMeaningfulTurn uTxt aTxt then
          let acc' := acc ++ [⟨e.id, aEv.map (·.id), uTxt, aTxt⟩]
          if MEANINGFUL_TARGET ≤ acc'.length then acc' else collectTurns rest acc'
        else collectTurns rest acc

/-- The turn-line rendering of `maybe_update_summary` (strip, newline → space,
truncate each side at 220 chars). -/
def renderTurnLine (t : Turn) : String :=
  let uLine := pyTruncate (pyReplaceNl (pyStrip t.user_text)) 220 "…"
  let aLine := pyTruncate (pyReplaceNl (pyStrip t.assistant_text)) 220 "…"
  if aLine ≠ "" then "USER: " ++ uLine ++ " | ASSISTANT: " ++ aLine
  else "USER: " ++ uLine

/-- `summaries._build_candidate_summary`: ask the completion service, fall
back to deterministic concatenation when it raises. -/
def buildCandidateSummary (llm : Option String → List String → Option String)
    (prior : Option String) (lines : List String) : String :=
  match llm prior lines with
  | some s => s
  | none =>
      let updateLines := lines.map (fun line =>
        "- " ++ pyTruncate (pyReplaceNl (pyStrip line)) 260 "…")
      match prior with
      | none => "Summary so far:\n" ++ String.intercalate "\n" updateLines
      | some p =>
          if p = "" then "Summary so far:\n" ++ String.intercalate "\n" updateLines
          else pyRstrip p ++ "\n\nNew info:\n" ++ String.intercalate "\n" updateLines

/-- `summaries._archive_active_summary`
(`UPDATE ... SET is_active = false WHERE thread_id = %s AND is_active`). -/
def archiveActiveSummary (store : SummStore) (tid : String) : SummStore :=
  { store with rows := store.rows.map (fun r =>
      if r.thread_id == tid && r.is_active then { r with is_active := false } else r) }

/-- The in-place rolling update applied by `_update_active_summary` to every
active row of the thread. -/
def rollingUpdateRow (candidate : String) (endId : Nat) (now : Nat) (e : Emb)
    (r : SummaryRow) : SummaryRow :=
  { r with summary := candidate, range_end_event_id := some endId,
           meta := ⟨"rolling_update", MEANINGFUL_TARGET, some now⟩,
           embedding := some e }

/-- The meaningful turns `maybe_update_summary` collects for a thread. -/
def summTurnsFor (env : SummEnv) (store : SummStore) (tid : String) : List Turn :=
  collectTurns (fetchEventsSince env.events
    ((getActiveSummary store tid).bind (·.range_end_event_id))) []

/-- The rendered turn lines. -/
def summTurnLines (turns : List Turn) : List String := turns.map renderTurnLine

/-- The candidate summary text `maybe_update_summary` builds. -/
def summCandidateFor (env : SummEnv) (store : SummStore) (tid : String) : String :=
  buildCandidateSummary env.llm ((getActiveSummary store tid).map (·.summary))
    (summTurnLines (summTurnsFor env store tid))

/-- The fresh-episode text built after a topic shift (new turns only). -/
def summEpisodeFor (env : SummEnv) (store : SummStore) (tid : String) : String :=
  buildCandidateSummary env.llm none (summTurnLines (summTurnsFor env store tid))

/-- `summaries.maybe_update_summary(thread_id)`.  The locals `turns`,
`candidate`, `episode_text` of the source are the stage functions
`summTurnsFor`, `summCandidateFor`, `summEpisodeFor` above. -/
def maybeUpdateSummary (env : SummEnv) (store : SummStore) (tid : String) :
    Option Bool × SummStore :=
  if shouldDebounceSummary env.now (getActiveSummary store tid) then (some false, store)
  else
    match summTurnsFor env store tid with
    | [] => (some false, store)
    | t0 :: rest =>
      if (t0 :: rest).length < MEANINGFUL_TARGET then (some false, store)
      else
        let tl := (t0 :: rest).getLast (List.cons_ne_nil t0 rest)
        let startId := t0.user_id
        let endId := match tl.assistant_id with
                     | some aid => aid
                     | none => tl.user_id
        let shiftCand : Bool × Option Emb :=
          match (getActiveSummary store tid).map (·.summary) with
          | none => (false, none)
          | some ps =>
              if ps = "" then (false, none)
              else
                match env.embed ps with
                | none => (false, none)
                | some ae =>
                    match env.embed (summCandidateFor env store tid) with
                    | none => (false, none)
                    | some ce => (cosineSimLtThreshold ae ce, some ce)
        match getActiveSummary store tid with
        | none =>
            match (match shiftCand.2 with
                   | some e => some e
                   | none => env.embed (summCandidateFor env store tid)) with
            | none => (none, store)
            | some e =>
                (some true,
                 { rows := store.rows ++
                     [{ id := store.nextId, thread_id := tid,
                        summary := summCandidateFor env store tid,
                        range_start_event_id := some startId,
                        range_end_event_id := some endId,
                        meta := ⟨"init", MEANINGFUL_TARGET, some env.now⟩,
                        embedding := some e, is_active := true }],
                   nextId := store.nextId + 1 })
        | some _ =>
            if shiftCand.1 then
              let store1 := archiveActiveSummary store tid
              match env.embed (summEpisodeFor env store tid) with
              | none => (none, store1)
              | some e =>
                  (some true,
                   { rows := store1.rows ++
                       [{ id := store1.nextId, thread_id := tid,
                          summary := summEpisodeFor env store tid,
                          range_start_event_id := some startId,
                          range_end_event_id := some endId,
                          meta := ⟨"topic_shift", MEANINGFUL_TARGET, some env.now⟩,
                          embedding := some e, is_active := true }],
                     nextId := store1.nextId + 1 })
            else
              match (match shiftCand.2 with
                     | some e => some e
                     | none => env.embed (summCandidateFor env store tid)) with
              | none => (none, store)
              | some e =>
                  (some true,
                   { store with rows := store.rows.map (fun r =>
                       if r.thread_id == tid && r.is_active then
                         rollingUpdateRow (summCandidateFor env store tid) endId
                           env.now e r
                       else r) })

/-- The active summary rows of one thread. -/
def activeRows (store : SummStore) (tid : String) : List SummaryRow :=
  store.rows.filter (fun r => r.thread_id == tid && r.is_active)

/-- Witness data: a thread with twelve meaningful turns (24 events). -/
def c1Events : List Ev :=
  (List.range 12).flatMap (fun i =>
    [⟨2 * i, 2 * i, "user", "i like strawberry ice cream very much indeed"⟩,
     ⟨2 * i + 1, 2 * i + 1, "assistant", "noted"⟩])

/-- Witness data: an active summary row with prior text "P". -/
def c1ActiveRow : SummaryRow :=
  { id := 0, thread_id := "t1", summary := "P", range_start_event_id := none,
    range_end_event_id := none, meta := ⟨"init", 12, none⟩,
    embedding := some [1, 0], is_active := true }

/-- Witness data: a summary store holding only the active row. -/
def c1Store : SummStore := ⟨[c1ActiveRow], 1⟩

/-- Counterexample environment: prior and candidate embed to orthogonal
vectors (similarity 0, a topic shift), but embedding the fresh episode text
"EP" fails. -/
def c1EnvCX : SummEnv :=
  { events := c1Events,
    embed := fun s => if s = "P" then some [1, 0]
                      else if s = "CAND" then some [0, 1] else none,
    llm := fun prior _ => match prior with
           | some _ => some "CAND"
           | none => some "EP",
    now := 1000 }

/-- Witness environment: prior "P" and candidate "CAND" embed to the same
vector (similarity 1, no topic shift). -/
def c1EnvW : SummEnv :=
  { events := c1Events,
    embed := fun s => if s = "P" then some [1]
                      else if s = "CAND" then some [1] else none,
    llm := fun _ _ => some "CAND",
    now := 1000 }

/-! ### Context assembler (`api.py`)

`SUMMARY_CUE_REGEX` and `SEMANTIC_CUE_REGEX` are alternations of literal
words/phrases wrapped in `\b...\b` with `re.IGNORECASE`; since every
alternative begins and ends with a word character, `re.search` succeeds
exactly when some alternative occurs case-insensitively with no word
character (`[A-Za-z0-9_]`) immediately before or after — which is what
`wbSearchFrom` scans for.  The store-reading helpers are modelled over an
`ApiEnv` holding the raw rows each SQL query returns (in the query's sort
order); the Python-side post-processing of each helper is transcribed. -/

/-- Python regex `\w` (ASCII). -/
def isWordChar (c : Char) : Bool := c.isAlphanum || c == '_'

/-- Word boundary against the preceding character (`none` = start of text). -/
def prevNonWord : Option Char → Bool
  | none => true
  | some c => !isWordChar c

/-- Word boundary against the following text. -/
def nextNonWord : List Char → Bool
  | [] => true
  | c :: _ => !isWordChar c

/-- The (lowercase) alternative `alt` matches at the head of `l` with word
boundaries on both sides. -/
def wbHere (alt : List Char) (prev : Option Char) (l : List Char) : Bool :=
  prevNonWord prev && charsStartsWith (lowerChars l) alt &&
    nextNonWord (l.drop alt.length)

/-- Scan for a word-bounded case-insensitive occurrence of `alt`. -/
def wbSearchFrom (alt : List Char) : Option Char → List Char → Bool
  | prev, [] => wbHere alt prev []
  | prev, c :: rest => wbHere alt prev (c :: rest) || wbSearchFrom alt (some c) rest

/-- `re.search` of an alternation of word-bounded literals, ignore-case. -/
def regexAnyWordBounded (alts : List String) (text : String) : Bool :=
  alts.any (fun alt => wbSearchFrom alt.data none text.data)

/-- The alternatives of `api.SUMMARY_CUE_REGEX`
(`recap|summari[sz]e|catch me up|where were we|continue`). -/
def summaryCueAlts : List String :=
  ["recap", "summarise", "summarize", "catch me up", "where were we", "continue"]

/-- The alternatives of `api.SEMANTIC_CUE_REGEX`
(`remember|what did i say|what was the plan|who am i|my name`). -/
def semanticCueAlts : List String :=
  ["remember", "what did i say", "what was the plan", "who am i", "my name"]

/-- `SUMMARY_CUE_REGEX.search(latest_user_text)` as a Bool. -/
def summaryCueMatch (s : String) : Bool := regexAnyWordBounded summaryCueAlts s

/-- `SEMANTIC_CUE_REGEX.search(latest_user_text)` as a Bool. -/
def semanticCueMatch (s : String) : Bool := regexAnyWordBounded semanticCueAlts s

/-- The rows the store returns to `_build_memory_context`'s helpers:
`activeSummaryRaw` is the summary column of the first active row
(`ORDER BY created_at DESC LIMIT 1`), `masterTexts` the text column of the
owner's active master items (`ORDER BY updated_at DESC`), `reactionRows` the
(reaction, content) rows of `_get_recent_reaction_feedback`'s join
(`ORDER BY updated_at DESC`), `eventRowsDesc` the (actor, content) rows of
`_query_events` (`ORDER BY created_at DESC`). -/
structure ApiEnv where
  activeSummaryRaw : Option String
  masterTexts : List String
  reactionRows : List (String × String)
  eventRowsDesc : List (String × String)
  reactionUserId : Option String

/-- `api._get_active_summary`: the stripped summary, `None` when blank. -/
def apiGetActiveSummary (env : ApiEnv) : Option String :=
  match env.activeSummaryRaw with
  | none => none
  | some s => if pyStrip s = "" then none else some (pyStrip s)

/-- `api._get_semantic_memories(thread_id, limit)`: SQL `LIMIT`, then keep
stripped nonempty texts. -/
def apiSemanticMemories (env : ApiEnv) (limit : Nat) : List String :=
  (env.masterTexts.take limit).filterMap (fun v =>
    if pyStrip v = "" then none else some (pyStrip v))

/-- One line of `api._get_recent_reaction_feedback`. -/
def reactionLine (row : String × String) : String :=
  let key := pyStrip row.1
  let excerpt := pyTruncate (pyReplaceNl (pyStrip row.2)) 120 "..."
  let label := if key = "thumbs_up" then "liked"
    else if key = "heart" then "loved"
    else if key = "angry" then "disliked"
    else if key = "sad" then "found unhelpful"
    else if key = "brain" then "requested a summary after"
    else if key = "" then "reacted" else key
  if excerpt ≠ "" then "User " ++ label ++ ": \"" ++ excerpt ++ "\""
  else "User reaction: " ++ label

/-- `api._get_recent_reaction_feedback(thread_id, user, limit)`. -/
def apiReactionFeedback (env : ApiEnv) (limit : Nat) : List String :=
  (env.reactionRows.take limit).map reactionLine

/-- `api._query_events` as consumed by the context builder: SQL `LIMIT` on
the descending rows, reverse to chronological order, keep only user and
assistant events. -/
def apiRecentMessages (env : ApiEnv) (limit : Nat) : List (String × String) :=
  ((env.eventRowsDesc.take limit).reverse).filter
    (fun m => m.1 == "user" || m.1 == "assistant")

/-- `api._normalize_limit`. -/
def normalizeLimit (raw : Option Int) (dflt cap : Int) : Int :=
  match raw with
  | none => dflt
  | some l => if l < 1 then 1 else if cap < l then cap else l

/-- The active-summary block of `_build_memory_context` (step 1). -/
def summarySegment (env : ApiEnv) (latest : String) : List (String × String) :=
  if summaryCueMatch latest then
    match apiGetActiveSummary env with
    | some s => [("system", "Active summary:\n" ++ s)]
    | none => []
  else []

/-- The semantic-recall block of `_build_memory_context` (step 2). -/
def semanticSegment (env : ApiEnv) (latest : String) : List (String × String) :=
  if semanticCueMatch latest then
    match apiSemanticMemories env 5 with
    | [] => []
    | sem => [("system", "Relevant long-term memory:\n" ++
        String.intercalate "\n- " sem)]
  else []

/-- The reaction-signals block of `_build_memory_context` (step 3). -/
def reactionSegment (env : ApiEnv) : List (String × String) :=
  match (match env.reactionUserId with
         | some _ => apiReactionFeedback env 8
         | none => []) with
  | [] => []
  | rf => [("system", "User reaction signals:\n- " ++
      String.intercalate "\n- " rf)]

/-- `api._build_memory_context(thread_id, latest_user_text, short_term_limit,
reaction_user_id)`: summary block, semantic block, reaction block, then the
recent raw history, each appended only under its own condition. -/
def buildMemoryContext (env : ApiEnv) (latest : String) (stl : Option Int) :
    List (String × String) :=
  summarySegment env latest ++ semanticSegment env latest ++
    reactionSegment env ++ apiRecentMessages env (normalizeLimit stl 30 200).toNat

/-- `s` starts with `pre`. -/
def strStartsWith (s pre : String) : Bool := charsStartsWith s.data pre.data

/-- The active-summary system block. -/
def isSummaryBlock (m : String × String) : Bool :=
  m.1 == "system" && strStartsWith m.2 "Active summary:"

/-- The semantic-recall system block. -/
def isSemanticBlock (m : String × String) : Bool :=
  m.1 == "system" && strStartsWith m.2 "Relevant long-term memory:"

/-- Ordering rank of a context line: summary 0, semantic 1, reaction 2,
raw history 3. -/
def blockRank (m : String × String) : Nat :=
  if m.1 ≠ "system" then 3
  else if strStartsWith m.2 "Active summary:" then 0
  else if strStartsWith m.2 "Relevant long-term memory:" then 1
  else 2

/-! ## Theorems -/

/-! ### Lemmas about the string primitives -/

theorem dropWhile_self_of_dropWhile {p : α → Bool} (l : List α) :
    (l.dropWhile p).dropWhile p = l.dropWhile p := by
  have h := List.head?_dropWhile_not p l
  cases hd : (l.dropWhile p).head? with
  | none =>
      have : l.dropWhile p = [] := List.head?_eq_none_iff.mp hd
      simp [this]
  | some x =>
      rw [hd] at h
      cases he : l.dropWhile p with
      | nil => rfl
      | cons y ys =>
          have hy : (y :: ys).head? = some x := by rw [← he, hd]
          have : y = x := by simpa using hy
          subst this
          exact List.dropWhile_cons_of_neg (by simp [h])

theorem head?_trimChars_not (l : List Char) :
    ∀ x, (trimChars l).head? = some x → isWsChar x = false := by
  intro x hx
  unfold trimChars at hx
  set m := (l.dropWhile isWsChar) with hm
  rcases hr : m.reverse.dropWhile isWsChar with _ | ⟨y, ys⟩
  · simp [hr] at hx
  · -- trimChars l = (y :: ys).reverse; its head is the last element of y :: ys
    -- which is the last element of m.reverse, i.e. the head of m.
    have hsuffix : (y :: ys) <:+ m.reverse := by
      rw [← hr]; exact List.dropWhile_suffix _
    obtain ⟨t, ht⟩ := hsuffix
    have hmrev : m = (y :: ys).reverse ++ t.reverse := by
      have := congrArg List.reverse ht
      simpa using this.symm
    have hhead : m.head? = some x := by
      rw [hmrev]
      have hx' : ((y :: ys).reverse).head? = some x := by
        rw [hr] at hx; exact hx
      rcases hyr : (y :: ys).reverse with _ | ⟨z, zs⟩
      · simp at hyr
      · rw [hyr] at hx'
        simp at hx'
        simp [hyr, hx']
    have := List.head?_dropWhile_not isWsChar l
    rw [← hm, hhead] at this
    exact this

theorem trimChars_idem (l : List Char) : trimChars (trimChars l) = trimChars l := by
  have hfront : (trimChars l).dropWhile isWsChar = trimChars l := by
    cases hd : (trimChars l).head? with
    | none =>
        have : trimChars l = [] := List.head?_eq_none_iff.mp hd
        simp [this]
    | some x =>
        have hx := head?_trimChars_not l x hd
        cases he : trimChars l with
        | nil => rfl
        | cons y ys =>
            have : y = x := by
              have := hd; rw [he] at this; simpa using this
            subst this
            exact List.dropWhile_cons_of_neg (by simp [hx])
  show (((trimChars l).dropWhile isWsChar).reverse.dropWhile isWsChar).reverse = trimChars l
  rw [hfront]
  show ((((l.dropWhile isWsChar).reverse.dropWhile isWsChar).reverse).reverse.dropWhile
      isWsChar).reverse = trimChars l
  rw [List.reverse_reverse, dropWhile_self_of_dropWhile]
  rfl

theorem beq_char_eq_toNat (c d : Char) : (c == d) = (c.toNat == d.toNat) := by
  rw [Bool.eq_iff_iff, beq_iff_eq, beq_iff_eq]
  constructor
  · intro h; subst h; rfl
  · intro h; exact Char.ext (UInt32.ext h)

theorem isWsChar_eq_toNat (c : Char) :
    isWsChar c = (c.toNat == 32 || c.toNat == 9 || c.toNat == 10 || c.toNat == 13 ||
      c.toNat == 11 || c.toNat == 12) := by
  unfold isWsChar
  rw [beq_char_eq_toNat, beq_char_eq_toNat, beq_char_eq_toNat, beq_char_eq_toNat,
    beq_char_eq_toNat, beq_char_eq_toNat]
  rfl

theorem toNat_charOfNat_in_lower {n : Nat} (h1 : 97 ≤ n) (h2 : n ≤ 122) :
    (Char.ofNat n).toNat = n := by
  have hv : n.isValidChar := Or.inl (by omega)
  unfold Char.ofNat
  rw [dif_pos hv]
  unfold Char.ofNatAux
  simp [Char.toNat, UInt32.toNat]

theorem isWsChar_toLower (c : Char) : isWsChar c.toLower = isWsChar c := by
  show isWsChar (if c.toNat ≥ 65 ∧ c.toNat ≤ 90 then Char.ofNat (c.toNat + 32) else c)
      = isWsChar c
  by_cases h : c.toNat ≥ 65 ∧ c.toNat ≤ 90
  · rw [if_pos h]
    have h1 := h.1
    have h2 := h.2
    rw [isWsChar_eq_toNat, isWsChar_eq_toNat,
      toNat_charOfNat_in_lower (by omega) (by omega)]
    have e1 : (c.toNat + 32 == 32 || c.toNat + 32 == 9 || c.toNat + 32 == 10 ||
        c.toNat + 32 == 13 || c.toNat + 32 == 11 || c.toNat + 32 == 12) = false := by
      simp only [Bool.or_eq_false_iff, beq_eq_false_iff_ne, ne_eq]
      omega
    have e2 : (c.toNat == 32 || c.toNat == 9 || c.toNat == 10 ||
        c.toNat == 13 || c.toNat == 11 || c.toNat == 12) = false := by
      simp only [Bool.or_eq_false_iff, beq_eq_false_iff_ne, ne_eq]
      omega
    rw [e1, e2]
  · rw [if_neg h]

theorem comp_isWsChar_toLower : isWsChar ∘ Char.toLower = isWsChar := by
  funext c; exact isWsChar_toLower c

theorem trimChars_lowerChars (l : List Char) :
    trimChars (lowerChars l) = lowerChars (trimChars l) := by
  unfold trimChars lowerChars
  rw [List.dropWhile_map, comp_isWsChar_toLower, ← List.map_reverse,
    List.dropWhile_map, comp_isWsChar_toLower, ← List.map_reverse]

/-- `s.strip()` is idempotent. -/
theorem pyStrip_idem (s : String) : pyStrip (pyStrip s) = pyStrip s := by
  unfold pyStrip
  exact congrArg String.mk (trimChars_idem s.data)

/-- Lowercasing commutes with stripping. -/
theorem pyStrip_pyLower (s : String) :
    pyStrip (pyLower s) = pyLower (pyStrip s) := by
  unfold pyStrip pyLower
  exact congrArg String.mk (trimChars_lowerChars s.data)

/-- A lowered stripped string is already stripped. -/
theorem pyStrip_pyLower_pyStrip (s : String) :
    pyStrip (pyLower (pyStrip s)) = pyLower (pyStrip s) := by
  rw [pyStrip_pyLower, pyStrip_idem]

theorem trivialChatter_no_highPhrase :
    ∀ s ∈ trivialChatter, (highPhrases.all fun p => !(strIn p s)) = true := by
  decide

theorem highPhrase_not_in_empty :
    (highPhrases.all fun p => !(strIn p "")) = true := by
  decide

/-- If the lowered stripped content contains a high phrase, it is nonempty and
not a trivial-chatter string. -/
theorem highPhrase_content_nontrivial (t : String)
    (hp : highPhrases.any (fun p => strIn p t) = true) :
    t ≠ "" ∧ t ∉ trivialChatter := by
  rw [List.any_eq_true] at hp
  obtain ⟨p, hpmem, hpt⟩ := hp
  constructor
  · intro h0
    subst h0
    have := List.all_eq_true.mp highPhrase_not_in_empty p hpmem
    simp [hpt] at this
  · intro hmem
    have := List.all_eq_true.mp (trivialChatter_no_highPhrase t hmem) p hpmem
    simp [hpt] at this

/-- C4: `_score_importance` is a deterministic total function into {0,1,3,5}:
assistant (non-user) content scores 0; trivial-chatter user content scores 0;
user content containing an identity/profile phrase scores 5 regardless of
surrounding text; otherwise a plan/commitment/constraint phrase scores 3;
otherwise a preference phrase scores 1; otherwise length ≥ 120 scores 1;
otherwise 0 (all on the stripped, lowercased content, as in the source). -/
theorem scoreImportance_rules (actor content : String) :
    (scoreImportance actor content = 0 ∨ scoreImportance actor content = 1 ∨
      scoreImportance actor content = 3 ∨ scoreImportance actor content = 5)
    ∧ (actor ≠ "user" → scoreImportance actor content = 0)
    ∧ (pyLower (pyStrip content) ∈ trivialChatter → scoreImportance actor content = 0)
    ∧ (actor = "user" →
        highPhrases.any (fun p => strIn p (pyLower (pyStrip content))) = true →
        scoreImportance actor content = 5)
    ∧ (actor = "user" → pyLower (pyStrip content) ∉ trivialChatter →
        pyLower (pyStrip content) ≠ "" →
        highPhrases.any (fun p => strIn p (pyLower (pyStrip content))) = false →
        mediumPhrases.any (fun p => strIn p (pyLower (pyStrip content))) = true →
        scoreImportance actor content = 3)
    ∧ (actor = "user" → pyLower (pyStrip content) ∉ trivialChatter →
        pyLower (pyStrip content) ≠ "" →
        highPhrases.any (fun p => strIn p (pyLower (pyStrip content))) = false →
        mediumPhrases.any (fun p => strIn p (pyLower (pyStrip content))) = false →
        lowPhrases.any (fun p => strIn p (pyLower (pyStrip content))) = true →
        scoreImportance actor content = 1)
    ∧ (actor = "user" → pyLower (pyStrip content) ∉ trivialChatter →
        pyLower (pyStrip content) ≠ "" →
        highPhrases.any (fun p => strIn p (pyLower (pyStrip content))) = false →
        mediumPhrases.any (fun p => strIn p (pyLower (pyStrip content))) = false →
        lowPhrases.any (fun p => strIn p (pyLower (pyStrip content))) = false →
        120 ≤ (pyLower (pyStrip content)).length →
        scoreImportance actor content = 1)
    ∧ (actor = "user" → pyLower (pyStrip content) ∉ trivialChatter →
        highPhrases.any (fun p => strIn p (pyLower (pyStrip content))) = false →
        mediumPhrases.any (fun p => strIn p (pyLower (pyStrip content))) = false →
        lowPhrases.any (fun p => strIn p (pyLower (pyStrip content))) = false →
        (pyLower (pyStrip content)).length < 120 →
        scoreImportance actor content = 0) := by
  refine ⟨?_, ?_, ?_, ?_, ?_, ?_, ?_, ?_⟩
  · simp only [scoreImportance]
    split_ifs <;> simp
  · intro ha
    simp [scoreImportance, ha]
  · intro hmem
    by_cases ha : actor = "user"
    · simp [scoreImportance, ha, hmem]
    · simp [scoreImportance, ha]
  · intro ha hp
    obtain ⟨hne, hmem⟩ := highPhrase_content_nontrivial _ hp
    simp [scoreImportance, ha, hne, hmem, hp]
  · intro ha hmem hne hh hm
    simp [scoreImportance, ha, hne, hmem, hh, hm]
  · intro ha hmem hne hh hm hl
    simp [scoreImportance, ha, hne, hmem, hh, hm, hl]
  · intro ha hmem hne hh hm hl hlen
    simp [scoreImportance, ha, hne, hmem, hh, hm, hl, hlen]
  · intro ha hmem hh hm hl hlen
    by_cases hne : pyLower (pyStrip content) = ""
    · simp [scoreImportance, ha, hne]
    · simp [scoreImportance, ha, hne, hmem, hh, hm, hl]
      omega

/-- C4 witness: concrete evaluations of the scorer through the rules theorem. -/
theorem scoreImportance_rules_witness :
    scoreImportance "user" "Oh btw my name is Pat, remember that" = 5 :=
  (scoreImportance_rules "user" "Oh btw my name is Pat, remember that").2.2.2.1
    rfl (by decide)

/-- C10: a nonzero caller-supplied `importance_score` bypasses the scorer —
the row is stored with exactly the caller's score — and embedding is still
forced whenever the effective score is ≥ 5; a zero caller score is replaced by
the scorer's result. -/
theorem addEvent_caller_score (actor content : String) (importanceScore : Int)
    (embedArg : Bool) (embedResult : Option Emb)
    (h : importanceScore ≠ 0) :
    (addEvent actor content importanceScore embedArg embedResult).storedScore
        = importanceScore
    ∧ (5 ≤ importanceScore →
        (addEvent actor content importanceScore embedArg embedResult).embedUsed = true)
    ∧ (addEvent actor content 0 embedArg embedResult).storedScore
        = scoreImportance actor content := by
  refine ⟨?_, ?_, ?_⟩
  · simp [addEvent, h]
  · intro h5
    simp [addEvent, h, h5]
  · simp [addEvent]

/-- C10 witness. -/
theorem addEvent_caller_score_witness :
    (addEvent "assistant" "hi" 7 false none).storedScore = 7
    ∧ (addEvent "assistant" "hi" 7 false none).embedUsed = true :=
  ⟨(addEvent_caller_score "assistant" "hi" 7 false none (by decide)).1,
   (addEvent_caller_score "assistant" "hi" 7 false none (by decide)).2.1 (by decide)⟩

/-- C5 counterexample: a user event scoring 5 ("my name is Pat") matches no
project/long-running cue, yet the immediate Master-Memory capture is
dispatched — the source condition is `score >= 5 OR cue`, not
`score >= 5 AND cue` as the claim states. -/
theorem addEvent_capture_counterexample :
    (addEvent "user" "my name is Pat" 0 false none).captureDispatched = true
    ∧ (addEvent "user" "my name is Pat" 0 false none).storedScore = 5
    ∧ projectMemoryBucket "my name is Pat" = none := by
  decide

/-- C5 (amended): the immediate Master-Memory capture is dispatched for a user
event exactly when its effective importance score is ≥ 5 OR its content
matches a project/long-running cue; a user event with score ≥ 5 also triggers
the Extraction Worker. -/
theorem addEvent_capture_amended (actor content : String) (importanceScore : Int)
    (embedArg : Bool) (embedResult : Option Emb) :
    ((addEvent actor content importanceScore embedArg embedResult).captureDispatched
        = true ↔
      (actor = "user" ∧
        (5 ≤ (addEvent actor content importanceScore embedArg embedResult).storedScore
          ∨ (projectMemoryBucket content).isSome = true)))
    ∧ ((addEvent actor content importanceScore embedArg embedResult).extractorDispatched
        = true ↔
      (actor = "user" ∧
        5 ≤ (addEvent actor content importanceScore embedArg embedResult).storedScore)) := by
  constructor
  · simp [addEvent, Bool.and_eq_true, Bool.or_eq_true, decide_eq_true_iff]
  · simp [addEvent, Bool.and_eq_true, decide_eq_true_iff]

/-- C5 witness: a user event matching the "working on" cue dispatches the
capture even though its score is below 5. -/
theorem addEvent_capture_amended_witness :
    (addEvent "user" "i was working on the app" 0 false none).captureDispatched = true :=
  (addEvent_capture_amended "user" "i was working on the app" 0 false none).1.mpr
    ⟨rfl, Or.inr (by decide)⟩

theorem masterKeyMatches_congr (u b t t' : String)
    (hkey : pyLower (pyStrip t) = pyLower (pyStrip t')) (row : MasterItem) :
    masterKeyMatches u b t row = masterKeyMatches u b t' row := by
  unfold masterKeyMatches
  rw [hkey]

theorem find?_congr {α : Type} {p q : α → Bool} (h : ∀ a, p a = q a) :
    ∀ l : List α, l.find? p = l.find? q := by
  intro l
  induction l with
  | nil => rfl
  | cons x xs ih =>
      rw [List.find?_cons, List.find?_cons, h x, ih]

theorem map_congr_mem {α β : Type} {f g : α → β} :
    ∀ {l : List α}, (∀ a ∈ l, f a = g a) → l.map f = l.map g := by
  intro l
  induction l with
  | nil => intro _; rfl
  | cons x xs ih =>
      intro h
      simp only [List.map_cons]
      rw [h x (List.mem_cons_self x xs), ih (fun a ha => h a (List.mem_cons_of_mem x ha))]

theorem pairwise_key_eq {α : Type} (key : α → Nat) :
    ∀ {l : List α}, l.Pairwise (fun a b => key a ≠ key b) →
      ∀ {a b : α}, a ∈ l → b ∈ l → key a = key b → a = b := by
  intro l
  induction l with
  | nil => intro _ a b ha; simp at ha
  | cons x xs ih =>
      intro hp a b ha hb hk
      rw [List.pairwise_cons] at hp
      rcases List.mem_cons.mp ha with rfl | ha' <;>
        rcases List.mem_cons.mp hb with rfl | hb'
      · rfl
      · exact absurd hk (hp.1 b hb')
      · exact absurd hk.symm (hp.1 a ha')
      · exact ih hp.2 ha' hb' hk

/-- C2: two `upsert_master_item` calls with the same owner and (valid) bucket
and texts identical up to trimming and case, starting from a store with no
row for that dedup key, leave exactly one row for the key, whose
`reinforcement_count` is 2, and both calls return the same item id (one net
row is added in total). -/
theorem upsertMasterItem_dedup (S : MasterStore)
    (now1 now2 : Nat) (e1 e2 : Option Emb)
    (u bkt t1 t2 stat1 stab1 stat2 stab2 : String) (c1 c2 : ℚ)
    (em1 em2 : Bool) (m1 m2 : List (String × String))
    (b s1 st1 s2 st2 : String) (i1 i2 : Nat) (S1 S2 : MasterStore)
    (hfresh : ∀ r ∈ S.rows, r.id < S.nextId)
    (hu : ¬(pyStrip u = "")) (ht1 : ¬(pyStrip t1 = "")) (ht2 : ¬(pyStrip t2 = ""))
    (hb : normBucket bkt = .ok b)
    (hs1 : normStatus stat1 = .ok s1) (hst1 : normStability stab1 = .ok st1)
    (hs2 : normStatus stat2 = .ok s2) (hst2 : normStability stab2 = .ok st2)
    (hkey : pyLower (pyStrip t1) = pyLower (pyStrip t2))
    (hnone : S.rows.find? (masterKeyMatches u b t1) = none)
    (h1 : upsertMasterItem S now1 e1 u bkt t1 stat1 stab1 c1 em1 m1 = .ok (i1, S1))
    (h2 : upsertMasterItem S1 now2 e2 u bkt t2 stat2 stab2 c2 em2 m2 = .ok (i2, S2)) :
    i1 = i2
    ∧ (S2.rows.filter (masterKeyMatches u b t2)).length = 1
    ∧ (∀ r ∈ S2.rows, masterKeyMatches u b t2 r = true → r.reinforcement_count = 2)
    ∧ S2.rows.length = S.rows.length + 1 := by
  have hcongr1 : ∀ row, masterKeyMatches u b (pyStrip t1) row
      = masterKeyMatches u b t1 row := by
    intro row
    exact masterKeyMatches_congr u b (pyStrip t1) t1 (by rw [pyStrip_idem]) row
  have hnone1 : S.rows.find? (masterKeyMatches u b (pyStrip t1)) = none := by
    rw [find?_congr hcongr1 S.rows]; exact hnone
  simp only [upsertMasterItem, if_neg hu, if_neg ht1, hb, hs1, hst1, hnone1] at h1
  rw [Except.ok.injEq, Prod.mk.injEq] at h1
  obtain ⟨hi1, hS1⟩ := h1
  -- the row inserted by the first call
  set nr : MasterItem :=
    { id := S.nextId, user_id := u, bucket := b, text := pyStrip t1,
      status := s1, stability := st1, confidence := clampConf c1,
      reinforcement_count := 1, last_seen_at := now1,
      last_reinforced_at := now1, meta := m1,
      embedding := if em1 then e1 else none } with hnr
  have hS1' : S1 = { rows := S.rows ++ [nr], nextId := S.nextId + 1 } := hS1.symm
  subst hS1'
  have hcongr2 : ∀ row, masterKeyMatches u b (pyStrip t2) row
      = masterKeyMatches u b t1 row := by
    intro row
    refine masterKeyMatches_congr u b (pyStrip t2) t1 ?_ row
    rw [pyStrip_idem, hkey]
  have hnrmatch : masterKeyMatches u b (pyStrip t2) nr = true := by
    simp only [masterKeyMatches, hnr, pyStrip_idem, hkey]
    simp
  have hfind2 : (S.rows ++ [nr]).find? (masterKeyMatches u b (pyStrip t2))
      = some nr := by
    rw [List.find?_append, find?_congr hcongr2 S.rows, hnone]
    simp [List.find?_cons, hnrmatch]
  simp only [upsertMasterItem, if_neg hu, if_neg ht2, hb, hs2, hst2, hfind2] at h2
  rw [Except.ok.injEq, Prod.mk.injEq] at h2
  obtain ⟨hi2, hS2⟩ := h2
  have hnrid : nr.id = S.nextId := rfl
  have hupd : (S.rows ++ [nr]).map (fun r =>
        if r.id == S.nextId then
          masterUpdateRow s2 st2 (clampConf c2) now2 m2
            (if em2 then e2 else none) r
        else r)
      = S.rows ++ [masterUpdateRow s2 st2 (clampConf c2) now2 m2
          (if em2 then e2 else none) nr] := by
    rw [List.map_append]
    have hleft : S.rows.map (fun r =>
        if r.id == S.nextId then
          masterUpdateRow s2 st2 (clampConf c2) now2 m2
            (if em2 then e2 else none) r
        else r) = S.rows.map (fun r => r) := by
      apply map_congr_mem
      intro r hr
      have : r.id ≠ S.nextId := Nat.ne_of_lt (hfresh r hr)
      simp [this]
    rw [hleft, List.map_id']
    congr 1
    simp [hnrid]
  rw [hupd] at hS2
  have hS2' : S2 = { rows := S.rows ++ [masterUpdateRow s2 st2 (clampConf c2)
      now2 m2 (if em2 then e2 else none) nr], nextId := S.nextId + 1 } := hS2.symm
  subst hS2'
  have hnomatch : ∀ r ∈ S.rows, masterKeyMatches u b t2 r = false := by
    intro r hr
    have := List.find?_eq_none.mp hnone r hr
    have hc : masterKeyMatches u b t2 r = masterKeyMatches u b t1 r :=
      masterKeyMatches_congr u b t2 t1 hkey.symm r
    rw [hc]
    simpa using this
  have hupdmatch : masterKeyMatches u b t2
      (masterUpdateRow s2 st2 (clampConf c2) now2 m2 (if em2 then e2 else none) nr)
      = true := by
    simp only [masterKeyMatches, masterUpdateRow, hnr, pyStrip_idem, hkey]
    simp
  refine ⟨?_, ?_, ?_, ?_⟩
  · rw [← hi1, ← hi2]
  · rw [List.filter_append]
    have hnil : S.rows.filter (masterKeyMatches u b t2) = [] := by
      rw [List.filter_eq_nil_iff]
      intro r hr
      simp [hnomatch r hr]
    rw [hnil]
    simp [hupdmatch]
  · intro r hr hm
    rcases List.mem_append.mp hr with hr' | hr'
    · rw [hnomatch r hr'] at hm
      exact absurd hm (by simp)
    · have : r = masterUpdateRow s2 st2 (clampConf c2) now2 m2
          (if em2 then e2 else none) nr := by simpa using hr'
      subst this
      rfl
  · simp

/-- C3: when a master item already exists for the dedup key and holds a stored
embedding, a further `upsert_master_item` whose embedding step yields nothing
(`embed=False` or an embedding-service failure) updates status, stability,
confidence, reinforcement count, timestamps and merged metadata of that row,
but leaves the stored embedding unchanged (never nulls it); no row is added
or removed. -/
theorem upsertMasterItem_preserves_embedding (S : MasterStore)
    (now : Nat) (e : Option Emb)
    (u bkt t stat stab : String) (c : ℚ) (em : Bool)
    (m : List (String × String))
    (b s st : String) (i : Nat) (S' : MasterStore)
    (row : MasterItem) (v : Emb)
    (hids : S.rows.Pairwise (fun a b => a.id ≠ b.id))
    (hu : ¬(pyStrip u = "")) (ht : ¬(pyStrip t = ""))
    (hb : normBucket bkt = .ok b)
    (hs : normStatus stat = .ok s) (hst : normStability stab = .ok st)
    (hfind : S.rows.find? (masterKeyMatches u b t) = some row)
    (hv : row.embedding = some v)
    (hemb : (if em then e else none) = none)
    (h1 : upsertMasterItem S now e u bkt t stat stab c em m = .ok (i, S')) :
    i = row.id
    ∧ (∀ r ∈ S'.rows, r.id = row.id →
        (r.embedding = some v
         ∧ r.status = s ∧ r.stability = st ∧ r.confidence = clampConf c
         ∧ r.reinforcement_count = row.reinforcement_count + 1
         ∧ r.last_seen_at = now ∧ r.last_reinforced_at = now
         ∧ r.meta = jsonbMerge row.meta m))
    ∧ (∃ r ∈ S'.rows, r.id = row.id)
    ∧ S'.rows.length = S.rows.length := by
  have hcongr : ∀ rr, masterKeyMatches u b (pyStrip t) rr
      = masterKeyMatches u b t rr := by
    intro rr
    exact masterKeyMatches_congr u b (pyStrip t) t (by rw [pyStrip_idem]) rr
  have hfind' : S.rows.find? (masterKeyMatches u b (pyStrip t)) = some row := by
    rw [find?_congr hcongr S.rows]; exact hfind
  simp only [upsertMasterItem, if_neg hu, if_neg ht, hb, hs, hst, hfind'] at h1
  rw [Except.ok.injEq, Prod.mk.injEq] at h1
  obtain ⟨hi, hS'⟩ := h1
  have hS'' : S' = { S with rows := S.rows.map (fun r =>
      if r.id == row.id then
        masterUpdateRow s st (clampConf c) now m (if em then e else none) r
      else r) } := hS'.symm
  subst hS''
  have hrowmem : row ∈ S.rows := List.mem_of_find?_eq_some hfind
  refine ⟨hi.symm, ?_, ?_, ?_⟩
  · intro r hr hrid
    simp only [List.mem_map] at hr
    obtain ⟨r0, hr0mem, hr0⟩ := hr
    by_cases hcase : r0.id = row.id
    · have hr0row : r0 = row := pairwise_key_eq (fun x => x.id) hids hr0mem hrowmem hcase
      subst hr0row
      rw [if_pos (by simp [hcase])] at hr0
      subst hr0
      rw [hemb]
      exact ⟨by simp [masterUpdateRow, hv], rfl, rfl, rfl, rfl, rfl, rfl, rfl⟩
    · rw [if_neg (by simp [hcase])] at hr0
      subst hr0
      exact absurd hrid hcase
  · refine ⟨masterUpdateRow s st (clampConf c) now m (if em then e else none) row,
      ?_, rfl⟩
    simp only [List.mem_map]
    exact ⟨row, hrowmem, by rw [if_pos (by simp)]⟩
  · simp

/-- C2 witness: concrete double upsert ("` I Like Tea`" then "`i like tea`")
from an empty store leaves one matching row. -/
theorem upsertMasterItem_dedup_witness :
    ((⟨[c2Row2], 1⟩ : MasterStore).rows.filter
      (masterKeyMatches "u" "PROFILE" "i like tea")).length = 1 ∧
    (∀ r ∈ (⟨[c2Row2], 1⟩ : MasterStore).rows,
      masterKeyMatches "u" "PROFILE" "i like tea" r = true →
      r.reinforcement_count = 2) :=
  have h := upsertMasterItem_dedup ⟨[], 0⟩ 10 20 none none "u" "PROFILE" " I Like Tea"
      "i like tea" "" "" "" "" 1 1 false false [] [] "PROFILE" "active" "med"
      "active" "med" 0 0 ⟨[c2Row1], 1⟩ ⟨[c2Row2], 1⟩
      (by simp) (by decide) (by decide) (by decide) rfl rfl rfl rfl rfl
      (by decide) rfl rfl rfl
  ⟨h.2.1, h.2.2.1⟩

theorem cosineAcc_eq (l : List (ℝ × ℝ)) (d na nb : ℝ) :
    cosineAcc l (d, na, nb) =
      (d + (l.map (fun p => p.1 * p.2)).sum,
       na + (l.map (fun p => p.1 * p.1)).sum,
       nb + (l.map (fun p => p.2 * p.2)).sum) := by
  induction l generalizing d na nb with
  | nil => simp [cosineAcc]
  | cons p rest ih =>
      obtain ⟨x, y⟩ := p
      simp only [cosineAcc, ih, List.map_cons, List.sum_cons, Prod.mk.injEq]
      refine ⟨by ring, by ring, by ring⟩

theorem cosineAccQ_eq (l : List (ℚ × ℚ)) (d na nb : ℚ) :
    cosineAccQ l (d, na, nb) =
      (d + (l.map (fun p => p.1 * p.2)).sum,
       na + (l.map (fun p => p.1 * p.1)).sum,
       nb + (l.map (fun p => p.2 * p.2)).sum) := by
  induction l generalizing d na nb with
  | nil => simp [cosineAccQ]
  | cons p rest ih =>
      obtain ⟨x, y⟩ := p
      simp only [cosineAccQ, ih, List.map_cons, List.sum_cons, Prod.mk.injEq]
      refine ⟨by ring, by ring, by ring⟩

theorem sqNorm_nonneg (v : List ℝ) : 0 ≤ sqNorm v := by
  apply List.sum_nonneg
  intro x hx
  simp only [List.mem_map] at hx
  obtain ⟨y, _, rfl⟩ := hx
  exact mul_self_nonneg y

theorem sqNorm_eq_zero (v : List ℝ) (h : sqNorm v = 0) : ∀ x ∈ v, x = 0 := by
  induction v with
  | nil => intro x hx; simp at hx
  | cons y ys ih =>
      have hy : y * y = 0 ∧ sqNorm ys = 0 := by
        have h' : y * y + sqNorm ys = 0 := by
          simpa [sqNorm] using h
        constructor
        · nlinarith [sqNorm_nonneg ys, mul_self_nonneg y]
        · nlinarith [sqNorm_nonneg ys, mul_self_nonneg y]
      intro x hx
      rcases List.mem_cons.mp hx with rfl | hx'
      · exact mul_self_eq_zero.mp hy.1
      · exact ih hy.2 x hx'

/-- C9: `_cosine_similarity` is total and never divides by zero: whenever
either input vector has zero norm (in particular for empty or all-zero
vectors) it returns `0.0` through the guarded branch. -/
theorem cosineSimilarity_total_safe (a b : List ℝ)
    (h : sqNorm a = 0 ∨ sqNorm b = 0) : cosineSimilarity a b = 0 := by
  unfold cosineSimilarity
  rw [cosineAcc_eq]
  rcases h with h | h
  · have hz : ∀ x ∈ a, x = 0 := sqNorm_eq_zero a h
    have hna : (((a.zip b).map (fun p => p.1 * p.1)).sum : ℝ) = 0 := by
      apply List.sum_eq_zero
      intro x hx
      simp only [List.mem_map] at hx
      obtain ⟨p, hp, rfl⟩ := hx
      rw [hz _ (List.of_mem_zip hp).1, mul_zero]
    simp [hna]
  · have hz : ∀ x ∈ b, x = 0 := sqNorm_eq_zero b h
    have hnb : (((a.zip b).map (fun p => p.2 * p.2)).sum : ℝ) = 0 := by
      apply List.sum_eq_zero
      intro x hx
      simp only [List.mem_map] at hx
      obtain ⟨p, hp, rfl⟩ := hx
      rw [hz _ (List.of_mem_zip hp).2, mul_zero]
    simp [hnb]

/-- C9 witness: a zero vector against a nonzero one yields similarity 0. -/
theorem cosineSimilarity_total_safe_witness :
    cosineSimilarity [0, 0] [1] = 0 :=
  cosineSimilarity_total_safe [0, 0] [1] (Or.inl (by norm_num [sqNorm]))

theorem ratCast_cosineAcc (l : List (ℚ × ℚ)) (d na nb : ℚ) :
    cosineAcc (l.map (fun p => ((p.1 : ℝ), (p.2 : ℝ)))) ((d : ℝ), (na : ℝ), (nb : ℝ))
      = (((cosineAccQ l (d, na, nb)).1 : ℝ),
         ((cosineAccQ l (d, na, nb)).2.1 : ℝ),
         ((cosineAccQ l (d, na, nb)).2.2 : ℝ)) := by
  induction l generalizing d na nb with
  | nil => simp [cosineAcc, cosineAccQ]
  | cons p rest ih =>
      obtain ⟨x, y⟩ := p
      simp only [List.map_cons, cosineAcc, cosineAccQ]
      rw [show ((d : ℝ) + (x : ℝ) * (y : ℝ)) = ((d + x * y : ℚ) : ℝ) by push_cast; ring,
        show ((na : ℝ) + (x : ℝ) * (x : ℝ)) = ((na + x * x : ℚ) : ℝ) by push_cast; ring,
        show ((nb : ℝ) + (y : ℝ) * (y : ℝ)) = ((nb + y * y : ℚ) : ℝ) by push_cast; ring]
      exact ih (d + x * y) (na + x * x) (nb + y * y)

/-- The decidable rational threshold test agrees with the real-valued
`_cosine_similarity(a, b) < 0.75` comparison of the source. -/
theorem cosineSimLtThreshold_iff (a b : List ℚ) :
    cosineSimLtThreshold a b = true ↔
      cosineSimilarity (castVec a) (castVec b) < 3 / 4 := by
  have hzip : (castVec a).zip (castVec b)
      = (a.zip b).map (fun p => ((p.1 : ℝ), (p.2 : ℝ))) := by
    unfold castVec
    induction a generalizing b with
    | nil => simp
    | cons x xs ih =>
        cases b with
        | nil => simp
        | cons y ys => simp [ih]
  have hcast := ratCast_cosineAcc (a.zip b) 0 0 0
  set sq := cosineAccQ (a.zip b) (0, 0, 0) with hsq
  have hna : 0 ≤ sq.2.1 := by
    rw [hsq, cosineAccQ_eq]
    dsimp only
    rw [zero_add]
    apply List.sum_nonneg
    intro x hx
    simp only [List.mem_map] at hx
    obtain ⟨p, _, rfl⟩ := hx
    exact mul_self_nonneg p.1
  have hnb : 0 ≤ sq.2.2 := by
    rw [hsq, cosineAccQ_eq]
    dsimp only
    rw [zero_add]
    apply List.sum_nonneg
    intro x hx
    simp only [List.mem_map] at hx
    obtain ⟨p, _, rfl⟩ := hx
    exact mul_self_nonneg p.2
  have hsim : cosineSimilarity (castVec a) (castVec b)
      = (if Real.sqrt (sq.2.1 : ℝ) * Real.sqrt (sq.2.2 : ℝ) = 0 then 0
         else (sq.1 : ℝ) / (Real.sqrt (sq.2.1 : ℝ) * Real.sqrt (sq.2.2 : ℝ))) := by
    unfold cosineSimilarity
    rw [hzip]
    rw [show ((0 : ℝ), (0 : ℝ), (0 : ℝ))
        = (((0 : ℚ) : ℝ), ((0 : ℚ) : ℝ), ((0 : ℚ) : ℝ)) by norm_num]
    rw [hcast]
  rw [hsim]
  unfold cosineSimLtThreshold
  rw [← hsq]
  by_cases h0 : sq.2.1 = 0 ∨ sq.2.2 = 0
  · rw [if_pos h0]
    have hdenom : Real.sqrt (sq.2.1 : ℝ) * Real.sqrt (sq.2.2 : ℝ) = 0 := by
      rcases h0 with h0 | h0 <;> rw [h0] <;> simp
    rw [if_pos hdenom]
    norm_num
  · rw [if_neg h0]
    push_neg at h0
    have hna' : 0 < sq.2.1 := lt_of_le_of_ne hna (Ne.symm h0.1)
    have hnb' : 0 < sq.2.2 := lt_of_le_of_ne hnb (Ne.symm h0.2)
    have hnaR : (0 : ℝ) < (sq.2.1 : ℝ) := by exact_mod_cast hna'
    have hnbR : (0 : ℝ) < (sq.2.2 : ℝ) := by exact_mod_cast hnb'
    have hsa : 0 < Real.sqrt (sq.2.1 : ℝ) := Real.sqrt_pos.mpr hnaR
    have hsb : 0 < Real.sqrt (sq.2.2 : ℝ) := Real.sqrt_pos.mpr hnbR
    have hdenom : 0 < Real.sqrt (sq.2.1 : ℝ) * Real.sqrt (sq.2.2 : ℝ) :=
      mul_pos hsa hsb
    rw [if_neg (ne_of_gt hdenom)]
    by_cases hd : sq.1 ≤ 0
    · rw [if_pos hd]
      have hdR : (sq.1 : ℝ) ≤ 0 := by exact_mod_cast hd
      have : (sq.1 : ℝ) / (Real.sqrt (sq.2.1 : ℝ) * Real.sqrt (sq.2.2 : ℝ)) ≤ 0 :=
        div_nonpos_of_nonpos_of_nonneg hdR (le_of_lt hdenom)
      constructor
      · intro _
        linarith
      · intro _
        rfl
    · rw [if_neg hd]
      push_neg at hd
      have hdR : (0 : ℝ) < (sq.1 : ℝ) := by exact_mod_cast hd
      rw [decide_eq_true_iff]
      have hsqrtmul : Real.sqrt (sq.2.1 : ℝ) * Real.sqrt (sq.2.2 : ℝ)
          = Real.sqrt ((sq.2.1 : ℝ) * (sq.2.2 : ℝ)) :=
        (Real.sqrt_mul (le_of_lt hnaR) _).symm
      have hM : (0 : ℝ) ≤ (sq.2.1 : ℝ) * (sq.2.2 : ℝ) :=
        le_of_lt (mul_pos hnaR hnbR)
      have hMsq : Real.sqrt ((sq.2.1 : ℝ) * (sq.2.2 : ℝ)) ^ 2
          = (sq.2.1 : ℝ) * (sq.2.2 : ℝ) := Real.sq_sqrt hM
      have hMpos : 0 < Real.sqrt ((sq.2.1 : ℝ) * (sq.2.2 : ℝ)) := by
        rw [← hsqrtmul]; exact hdenom
    -- reduce the rational inequality to the real one
      rw [show (16 * (sq.1 * sq.1) < 9 * (sq.2.1 * sq.2.2)) ↔
          (16 * ((sq.1 : ℝ) * (sq.1 : ℝ)) < 9 * ((sq.2.1 : ℝ) * (sq.2.2 : ℝ))) by
        constructor
        · intro h; exact_mod_cast h
        · intro h; exact_mod_cast h]
      rw [hsqrtmul, div_lt_iff₀ hMpos]
      constructor
      · intro h
        nlinarith [hMsq, hMpos, hdR]
      · intro h
        nlinarith [hMsq, hMpos, hdR]

theorem trivialChatter_no_strongPhrase :
    ∀ s ∈ trivialChatter, (strongPhrases.all fun p => !(strIn p s)) = true := by
  decide

theorem strongPhrases_not_in_empty :
    (strongPhrases.all fun p => !(strIn p "")) = true := by
  decide

/-- C6 counterexample: the user text "use Rust" contains the strong phrase
"use " but the turn ("use Rust", "") is rejected by the combined-length floor
(`len(combo) < 40`) before the strong-phrase check runs, so
`is_meaningful_turn` returns False — the claim's "unconditionally" is wrong. -/
theorem isMeaningfulTurn_counterexample :
    strongPhrases.any (fun p => strIn p (pyLower (pyStrip "use Rust"))) = true
    ∧ isMeaningfulTurn "use Rust" "" = false := by
  decide

/-- C6 (amended): whenever the user text contains a strong phrase AND the
combined stripped text passes the 40-character floor, `is_meaningful_turn`
returns True (the trivial-set rejection can never fire here because no
trivial-chatter string contains a strong phrase). -/
theorem isMeaningfulTurn_strong_amended (ut asst : String)
    (hp : strongPhrases.any (fun p => strIn p (pyLower (pyStrip ut))) = true)
    (hl : 40 ≤ (pyStrip (pyStrip ut ++ "\n" ++ pyStrip asst)).length) :
    isMeaningfulTurn ut asst = true := by
  have hne : ¬(pyStrip ut = "" ∧ pyStrip asst = "") := by
    rintro ⟨hu, _⟩
    rw [List.any_eq_true] at hp
    obtain ⟨p, hpmem, hpt⟩ := hp
    rw [hu] at hpt
    have h0 : pyLower "" = "" := rfl
    rw [h0] at hpt
    have := List.all_eq_true.mp strongPhrases_not_in_empty p hpmem
    simp [hpt] at this
  have htriv : ¬(pyStrip (pyLower (pyStrip ut)) ∈ trivialChatter ∧
      (pyStrip asst).length < 80) := by
    rintro ⟨hmem, _⟩
    rw [pyStrip_pyLower_pyStrip] at hmem
    rw [List.any_eq_true] at hp
    obtain ⟨p, hpmem, hpt⟩ := hp
    have := List.all_eq_true.mp (trivialChatter_no_strongPhrase _ hmem) p hpmem
    simp [hpt] at this
  have hlen : ¬((pyStrip (pyStrip ut ++ "\n" ++ pyStrip asst)).length < 40) :=
    Nat.not_lt.mpr hl
  simp only [isMeaningfulTurn]
  rw [if_neg hne, if_neg htriv, if_neg hlen, if_pos hp]

/-- C6 witness: a preference turn long enough to pass the length floor. -/
theorem isMeaningfulTurn_strong_amended_witness :
    isMeaningfulTurn "i like competitive programming contests a lot" "sounds fun" = true :=
  isMeaningfulTurn_strong_amended "i like competitive programming contests a lot"
    "sounds fun" (by decide) (by decide)

theorem filter_map_untouched {α : Type} (p q : α → Bool) (f : α → α)
    (hdisj : ∀ r, p r = true → q r = false)
    (hq : ∀ r, p r = true → q (f r) = false) :
    ∀ rows : List α,
      (rows.map (fun r => if p r then f r else r)).filter q = rows.filter q := by
  intro rows
  induction rows with
  | nil => rfl
  | cons r rs ih =>
      simp only [List.map_cons, List.filter_cons]
      by_cases hp : p r = true
      · rw [if_pos hp, hq r hp, hdisj r hp]
        exact ih
      · rw [if_neg hp]
        cases hqr : q r with
        | true => simp [hqr, ih]
        | false => simp [hqr, ih]

theorem filter_map_updated {α : Type} (p : α → Bool) (f : α → α)
    (hp : ∀ r, p (f r) = p r) :
    ∀ rows : List α,
      (rows.map (fun r => if p r then f r else r)).filter p = (rows.filter p).map f := by
  intro rows
  induction rows with
  | nil => rfl
  | cons r rs ih =>
      simp only [List.map_cons, List.filter_cons]
      by_cases hpr : p r = true
      · rw [if_pos hpr, hp r, hpr]
        simp [ih]
      · rw [if_neg hpr]
        cases hq : p r with
        | true => exact absurd hq hpr
        | false => simp [hq, ih]

theorem activeRows_nil_of_none (store : SummStore) (tid : String)
    (h : getActiveSummary store tid = none) : activeRows store tid = [] := by
  unfold activeRows
  rw [List.filter_eq_nil_iff]
  intro r hr
  exact List.find?_eq_none.mp h r hr

theorem mem_single_of_length_le_one {α : Type} {l : List α} {x : α}
    (hlen : l.length ≤ 1) (hx : x ∈ l) : l = [x] := by
  cases l with
  | nil => simp at hx
  | cons y ys =>
      cases ys with
      | nil =>
          have : x = y := by simpa using hx
          rw [this]
      | cons z zs => simp at hlen

theorem activeRows_eq_single (store : SummStore) (tid : String) (r : SummaryRow)
    (hinv : (activeRows store tid).length ≤ 1)
    (hact : getActiveSummary store tid = some r) : activeRows store tid = [r] := by
  have hact' : store.rows.find? (fun x => x.thread_id == tid && x.is_active)
      = some r := hact
  have hmem : r ∈ store.rows :=
    @List.mem_of_find?_eq_some SummaryRow (fun x => x.thread_id == tid && x.is_active)
      r store.rows hact'
  have hpr : (r.thread_id == tid && r.is_active) = true :=
    @List.find?_some SummaryRow (fun x => x.thread_id == tid && x.is_active)
      r store.rows hact'
  have : r ∈ activeRows store tid := by
    unfold activeRows
    exact List.mem_filter.mpr ⟨hmem, hpr⟩
  exact mem_single_of_length_le_one hinv this

theorem activeRows_archive_self (store : SummStore) (tid : String) :
    activeRows (archiveActiveSummary store tid) tid = [] := by
  unfold activeRows archiveActiveSummary
  rw [List.filter_eq_nil_iff]
  intro r hr
  simp only [List.mem_map] at hr
  obtain ⟨r0, _, hr0⟩ := hr
  by_cases h : (r0.thread_id == tid && r0.is_active) = true
  · rw [if_pos h] at hr0
    subst hr0
    simp
  · rw [if_neg h] at hr0
    subst hr0
    simpa using h

theorem activeRows_archive_other (store : SummStore) (tid t : String)
    (ht : t ≠ tid) :
    activeRows (archiveActiveSummary store tid) t = activeRows store t := by
  unfold activeRows archiveActiveSummary
  apply filter_map_untouched
  · intro r hp
    rw [Bool.and_eq_true, beq_iff_eq] at hp
    simp only [Bool.and_eq_false_iff, beq_eq_false_iff_ne]
    left
    rw [hp.1]
    exact Ne.symm ht
  · intro r hp
    rw [Bool.and_eq_true, beq_iff_eq] at hp
    simp only [Bool.and_eq_false_iff, beq_eq_false_iff_ne]
    left
    show r.thread_id ≠ t
    rw [hp.1]
    exact Ne.symm ht

/-- C7: whenever the events since the active summary's range end contain
fewer than `MEANINGFUL_TARGET` meaningful turns, `maybe_update_summary`
returns `False` and leaves the summary table untouched (no insert, update or
archive). -/
theorem maybeUpdateSummary_below_target (env : SummEnv) (store : SummStore)
    (tid : String)
    (h : (summTurnsFor env store tid).length < MEANINGFUL_TARGET) :
    maybeUpdateSummary env store tid = (some false, store) := by
  unfold maybeUpdateSummary
  by_cases hdeb : shouldDebounceSummary env.now (getActiveSummary store tid) = true
  · rw [if_pos hdeb]
  · rw [if_neg hdeb]
    rcases hT : summTurnsFor env store tid with _ | ⟨t0, rest⟩
    · rfl
    · rw [hT] at h
      simp only [if_pos h]

/-- C7 witness: an empty thread produces no turns and no-ops. -/
theorem maybeUpdateSummary_below_target_witness :
    maybeUpdateSummary ⟨[], fun _ => none, fun _ _ => none, 0⟩ ⟨[], 0⟩ "t1"
      = (some false, ⟨[], 0⟩) :=
  maybeUpdateSummary_below_target ⟨[], fun _ => none, fun _ _ => none, 0⟩ ⟨[], 0⟩ "t1"
    (by decide)

theorem length_filter_map_pred {α : Type} (p : α → Bool) (g : α → α)
    (hg : ∀ r, p (g r) = p r) :
    ∀ rows : List α, ((rows.map g).filter p).length = (rows.filter p).length := by
  intro rows
  induction rows with
  | nil => rfl
  | cons r rs ih =>
      simp only [List.map_cons, List.filter_cons, hg r]
      cases h : p r with
      | true => simp [ih]
      | false => simp [ih]

theorem maybeUpdateSummary_invariant_only (env : SummEnv) (store : SummStore)
    (tid : String) (hinv : (activeRows store tid).length ≤ 1) :
    (activeRows (maybeUpdateSummary env store tid).2 tid).length ≤ 1 := by
  simp only [maybeUpdateSummary]
  split
  · exact hinv
  split
  · exact hinv
  split
  · exact hinv
  split
  · -- no active summary: init insert (or failure)
    next hactnone =>
      split
      · exact hinv
      · unfold activeRows
        simp only [List.filter_append]
        have h0 : activeRows store tid = [] := activeRows_nil_of_none store tid hactnone
        unfold activeRows at h0
        rw [h0]
        simp
  · -- active summary exists
    split
    · -- topic shift: archive, then insert (or failure)
      split
      · rw [activeRows_archive_self]
        simp
      · unfold activeRows
        simp only [List.filter_append]
        rw [show List.filter (fun r => r.thread_id == tid && r.is_active)
              (archiveActiveSummary store tid).rows = [] from
              activeRows_archive_self store tid]
        simp
    · -- rolling update in place
      split
      · exact hinv
      · unfold activeRows
        dsimp only
        refine le_of_eq_of_le (length_filter_map_pred _ _ ?_ store.rows) ?_
        · intro r
          by_cases h : (r.thread_id == tid && r.is_active) = true
          · rw [if_pos h]
            rfl
          · rw [if_neg h]
        · unfold activeRows at hinv
          simpa using hinv

theorem maybeUpdateSummary_frame (env : SummEnv) (store : SummStore)
    (tid t : String) (ht : t ≠ tid) :
    activeRows (maybeUpdateSummary env store tid).2 t = activeRows store t := by
  have hne : (tid == t) = false := beq_eq_false_iff_ne.mpr (Ne.symm ht)
  simp only [maybeUpdateSummary]
  split
  · rfl
  split
  · rfl
  split
  · rfl
  split
  · -- no active summary: init insert (or failure)
    split
    · rfl
    · unfold activeRows
      dsimp only
      rw [List.filter_append]
      simp [List.filter_cons, hne]
  · -- active summary exists
    split
    · -- topic shift
      split
      · exact activeRows_archive_other store tid t ht
      · unfold activeRows
        dsimp only
        rw [List.filter_append]
        rw [show List.filter (fun r => r.thread_id == t && r.is_active)
              (archiveActiveSummary store tid).rows = activeRows store t from
              activeRows_archive_other store tid t ht]
        simp [List.filter_cons, hne]
        rfl
    · -- rolling update
      split
      · rfl
      · unfold activeRows
        dsimp only
        refine filter_map_untouched _ _ _ ?_ ?_ store.rows
        · intro r hp
          rw [Bool.and_eq_true, beq_iff_eq] at hp
          simp only [Bool.and_eq_false_iff, beq_eq_false_iff_ne]
          left
          rw [hp.1]
          exact Ne.symm ht
        · intro r hp
          rw [Bool.and_eq_true, beq_iff_eq] at hp
          simp only [Bool.and_eq_false_iff, beq_eq_false_iff_ne]
          left
          show r.thread_id ≠ t
          rw [hp.1]
          exact Ne.symm ht

theorem maybeUpdateSummary_high_sim (env : SummEnv) (store : SummStore)
    (tid : String) (r : SummaryRow) (pe ce : Emb)
    (hinv : (activeRows store tid).length ≤ 1)
    (hact : getActiveSummary store tid = some r)
    (hdeb : shouldDebounceSummary env.now (some r) = false)
    (hlen : MEANINGFUL_TARGET ≤ (summTurnsFor env store tid).length)
    (hprior : r.summary ≠ "")
    (hpe : env.embed r.summary = some pe)
    (hce : env.embed (summCandidateFor env store tid) = some ce)
    (hsim : (3 : ℝ) / 4 ≤ cosineSimilarity (castVec pe) (castVec ce)) :
    (maybeUpdateSummary env store tid).1 = some true
    ∧ (activeRows (maybeUpdateSummary env store tid).2 tid).map (·.id) = [r.id]
    ∧ (maybeUpdateSummary env store tid).2.rows.length = store.rows.length
    ∧ (maybeUpdateSummary env store tid).2.nextId = store.nextId := by
  have hshift : cosineSimLtThreshold pe ce = false := by
    cases hb : cosineSimLtThreshold pe ce with
    | false => rfl
    | true =>
        have := (cosineSimLtThreshold_iff pe ce).mp hb
        exact absurd this (by linarith)
  rcases hT : summTurnsFor env store tid with _ | ⟨t0, rest⟩
  · rw [hT] at hlen
    exact absurd hlen (by decide)
  · rw [hT] at hlen
    have hnotlt : ¬((t0 :: rest).length < MEANINGFUL_TARGET) := Nat.not_lt.mpr hlen
    have hres : maybeUpdateSummary env store tid = (some true,
        { store with rows := store.rows.map (fun row =>
            if row.thread_id == tid && row.is_active then
              rollingUpdateRow (summCandidateFor env store tid)
                (match ((t0 :: rest).getLast (List.cons_ne_nil t0 rest)).assistant_id with
                 | some aid => aid
                 | none => ((t0 :: rest).getLast (List.cons_ne_nil t0 rest)).user_id)
                env.now ce row
            else row) }) := by
      simp only [maybeUpdateSummary, hact, hdeb, hT, Bool.false_eq_true, if_false,
        Option.map_some', if_neg hprior, hpe, hce, hshift, if_neg hnotlt]
    rw [hres]
    refine ⟨rfl, ?_, by simp, rfl⟩
    have hsingle : store.rows.filter (fun x => x.thread_id == tid && x.is_active)
        = [r] := activeRows_eq_single store tid r hinv hact
    have hmapped := filter_map_updated
      (fun row : SummaryRow => row.thread_id == tid && row.is_active)
      (rollingUpdateRow (summCandidateFor env store tid)
        (match ((t0 :: rest).getLast (List.cons_ne_nil t0 rest)).assistant_id with
         | some aid => aid
         | none => ((t0 :: rest).getLast (List.cons_ne_nil t0 rest)).user_id)
        env.now ce)
      (fun row => rfl) store.rows
    unfold activeRows
    dsimp only
    rw [hmapped, hsingle]
    rfl

theorem maybeUpdateSummary_topic_shift (env : SummEnv) (store : SummStore)
    (tid : String) (r : SummaryRow) (pe ce ee : Emb)
    (hfresh : ∀ row ∈ store.rows, row.id < store.nextId)
    (hact : getActiveSummary store tid = some r)
    (hdeb : shouldDebounceSummary env.now (some r) = false)
    (hlen : MEANINGFUL_TARGET ≤ (summTurnsFor env store tid).length)
    (hprior : r.summary ≠ "")
    (hpe : env.embed r.summary = some pe)
    (hce : env.embed (summCandidateFor env store tid) = some ce)
    (hsim : cosineSimilarity (castVec pe) (castVec ce) < 3 / 4)
    (hee : env.embed (summEpisodeFor env store tid) = some ee) :
    (maybeUpdateSummary env store tid).1 = some true
    ∧ (activeRows (maybeUpdateSummary env store tid).2 tid).map (·.id) = [store.nextId]
    ∧ (∃ r' ∈ (maybeUpdateSummary env store tid).2.rows,
        r'.id = r.id ∧ r'.is_active = false)
    ∧ r.id ≠ store.nextId
    ∧ (maybeUpdateSummary env store tid).2.rows.length = store.rows.length + 1 := by
  have hshift : cosineSimLtThreshold pe ce = true :=
    (cosineSimLtThreshold_iff pe ce).mpr hsim
  have hmem : r ∈ store.rows := by
    have hact' : store.rows.find? (fun x => x.thread_id == tid && x.is_active)
        = some r := hact
    exact @List.mem_of_find?_eq_some SummaryRow
      (fun x => x.thread_id == tid && x.is_active) r store.rows hact'
  have hpr : (r.thread_id == tid && r.is_active) = true := by
    have hact' : store.rows.find? (fun x => x.thread_id == tid && x.is_active)
        = some r := hact
    exact @List.find?_some SummaryRow
      (fun x => x.thread_id == tid && x.is_active) r store.rows hact'
  rcases hT : summTurnsFor env store tid with _ | ⟨t0, rest⟩
  · rw [hT] at hlen
    exact absurd hlen (by decide)
  · rw [hT] at hlen
    have hnotlt : ¬((t0 :: rest).length < MEANINGFUL_TARGET) := Nat.not_lt.mpr hlen
    have hres : maybeUpdateSummary env store tid = (some true,
        { rows := (archiveActiveSummary store tid).rows ++
            [{ id := (archiveActiveSummary store tid).nextId, thread_id := tid,
               summary := summEpisodeFor env store tid,
               range_start_event_id := some t0.user_id,
               range_end_event_id := some
                 (match ((t0 :: rest).getLast (List.cons_ne_nil t0 rest)).assistant_id with
                  | some aid => aid
                  | none => ((t0 :: rest).getLast (List.cons_ne_nil t0 rest)).user_id),
               meta := ⟨"topic_shift", MEANINGFUL_TARGET, some env.now⟩,
               embedding := some ee, is_active := true }],
          nextId := (archiveActiveSummary store tid).nextId + 1 }) := by
      simp only [maybeUpdateSummary, hact, hdeb, hT, Bool.false_eq_true, if_false,
        Option.map_some', if_neg hprior, hpe, hce, hshift, if_neg hnotlt, if_true, hee]
    rw [hres]
    refine ⟨rfl, ?_, ?_, ?_, ?_⟩
    · unfold activeRows
      dsimp only
      rw [List.filter_append]
      rw [show List.filter (fun x => x.thread_id == tid && x.is_active)
            (archiveActiveSummary store tid).rows = [] from
            activeRows_archive_self store tid]
      simp
      rfl
    · refine ⟨{ r with is_active := false }, ?_, rfl, rfl⟩
      dsimp only
      apply List.mem_append_left
      unfold archiveActiveSummary
      dsimp only
      exact List.mem_map.mpr ⟨r, hmem, by rw [if_pos hpr]⟩
    · exact Nat.ne_of_lt (hfresh r hmem)
    · simp [archiveActiveSummary]

theorem maybeUpdateSummary_shift_embed_fail (env : SummEnv) (store : SummStore)
    (tid : String) (r : SummaryRow) (pe ce : Emb)
    (hact : getActiveSummary store tid = some r)
    (hdeb : shouldDebounceSummary env.now (some r) = false)
    (hlen : MEANINGFUL_TARGET ≤ (summTurnsFor env store tid).length)
    (hprior : r.summary ≠ "")
    (hpe : env.embed r.summary = some pe)
    (hce : env.embed (summCandidateFor env store tid) = some ce)
    (hsim : cosineSimilarity (castVec pe) (castVec ce) < 3 / 4)
    (hee : env.embed (summEpisodeFor env store tid) = none) :
    maybeUpdateSummary env store tid = (none, archiveActiveSummary store tid) := by
  have hshift : cosineSimLtThreshold pe ce = true :=
    (cosineSimLtThreshold_iff pe ce).mpr hsim
  rcases hT : summTurnsFor env store tid with _ | ⟨t0, rest⟩
  · rw [hT] at hlen
    exact absurd hlen (by decide)
  · rw [hT] at hlen
    have hnotlt : ¬((t0 :: rest).length < MEANINGFUL_TARGET) := Nat.not_lt.mpr hlen
    simp only [maybeUpdateSummary, hact, hdeb, hT, Bool.false_eq_true, if_false,
      Option.map_some', if_neg hprior, hpe, hce, hshift, if_neg hnotlt, if_true, hee]

/-- C1 counterexample: the meaningful-turn threshold is reached, the
similarity is below the 0.75 threshold (a topic shift), and the source
archives the active row — but because embedding the fresh episode text
raises, no fresh active row is inserted: the invocation ends with zero active
rows, refuting "exactly one fresh active row is inserted".  (The at-most-one
invariant itself still holds.) -/
theorem maybeUpdateSummary_counterexample :
    MEANINGFUL_TARGET ≤ (summTurnsFor c1EnvCX c1Store "t1").length
    ∧ cosineSimilarity (castVec [1, 0]) (castVec [0, 1]) < 3 / 4
    ∧ (maybeUpdateSummary c1EnvCX c1Store "t1").2
        = ⟨[{ c1ActiveRow with is_active := false }], 1⟩
    ∧ activeRows (maybeUpdateSummary c1EnvCX c1Store "t1").2 "t1" = [] := by
  have hthr : cosineSimLtThreshold [1, 0] [0, 1] = true := by
    simp only [cosineSimLtThreshold, List.zip, List.zipWith, cosineAccQ]
    norm_num
  have hsim : cosineSimilarity (castVec [1, 0]) (castVec [0, 1]) < 3 / 4 :=
    (cosineSimLtThreshold_iff [1, 0] [0, 1]).mp hthr
  have hres := maybeUpdateSummary_shift_embed_fail c1EnvCX c1Store "t1"
    c1ActiveRow [1, 0] [0, 1] rfl rfl (by decide) (by decide) (by decide)
    (by decide) hsim (by decide)
  refine ⟨by decide, hsim, ?_, ?_⟩
  · rw [hres]
    decide
  · rw [hres]
    decide

/-- C1 (amended): every invocation of `maybe_update_summary` keeps at most
one active summary row per conversation (other conversations untouched),
including debounced and midway-failing invocations.  In a non-debounced
invocation that reaches the meaningful-turn threshold, with a nonempty prior
summary whose embedding and the candidate's embedding succeed: at similarity
≥ 0.75 the same active row (same id) is updated in place with no insert;
at similarity < 0.75, provided the embedding of the fresh episode summary
also succeeds, the previously active row is archived (is_active = false) and
exactly one fresh active row (a new id) is inserted. -/
theorem maybeUpdateSummary_c1_amended (env : SummEnv) (store : SummStore)
    (tid : String)
    (hinv : (activeRows store tid).length ≤ 1)
    (hfresh : ∀ row ∈ store.rows, row.id < store.nextId) :
    ((activeRows (maybeUpdateSummary env store tid).2 tid).length ≤ 1
     ∧ ∀ t, t ≠ tid → activeRows (maybeUpdateSummary env store tid).2 t
         = activeRows store t)
    ∧ (∀ r pe ce,
        getActiveSummary store tid = some r →
        shouldDebounceSummary env.now (some r) = false →
        MEANINGFUL_TARGET ≤ (summTurnsFor env store tid).length →
        r.summary ≠ "" →
        env.embed r.summary = some pe →
        env.embed (summCandidateFor env store tid) = some ce →
        (3 : ℝ) / 4 ≤ cosineSimilarity (castVec pe) (castVec ce) →
        (maybeUpdateSummary env store tid).1 = some true
        ∧ (activeRows (maybeUpdateSummary env store tid).2 tid).map (·.id) = [r.id]
        ∧ (maybeUpdateSummary env store tid).2.rows.length = store.rows.length
        ∧ (maybeUpdateSummary env store tid).2.nextId = store.nextId)
    ∧ (∀ r pe ce ee,
        getActiveSummary store tid = some r →
        shouldDebounceSummary env.now (some r) = false →
        MEANINGFUL_TARGET ≤ (summTurnsFor env store tid).length →
        r.summary ≠ "" →
        env.embed r.summary = some pe →
        env.embed (summCandidateFor env store tid) = some ce →
        cosineSimilarity (castVec pe) (castVec ce) < 3 / 4 →
        env.embed (summEpisodeFor env store tid) = some ee →
        (maybeUpdateSummary env store tid).1 = some true
        ∧ (activeRows (maybeUpdateSummary env store tid).2 tid).map (·.id)
            = [store.nextId]
        ∧ (∃ r' ∈ (maybeUpdateSummary env store tid).2.rows,
            r'.id = r.id ∧ r'.is_active = false)
        ∧ r.id ≠ store.nextId
        ∧ (maybeUpdateSummary env store tid).2.rows.length
            = store.rows.length + 1) :=
  ⟨⟨maybeUpdateSummary_invariant_only env store tid hinv,
    fun t ht => maybeUpdateSummary_frame env store tid t ht⟩,
   fun r pe ce hact hdeb hlen hprior hpe hce hsim =>
     maybeUpdateSummary_high_sim env store tid r pe ce hinv hact hdeb hlen
       hprior hpe hce hsim,
   fun r pe ce ee hact hdeb hlen hprior hpe hce hsim hee =>
     maybeUpdateSummary_topic_shift env store tid r pe ce ee hfresh hact hdeb
       hlen hprior hpe hce hsim hee⟩

/-- C1 witness: the high-similarity run updates the same row id 0 in place. -/
theorem maybeUpdateSummary_c1_amended_witness :
    (maybeUpdateSummary c1EnvW c1Store "t1").1 = some true
    ∧ (activeRows (maybeUpdateSummary c1EnvW c1Store "t1").2 "t1").map (·.id) = [0] :=
  have hthrW : cosineSimLtThreshold [1] [1] = false := by
    simp only [cosineSimLtThreshold, List.zip, List.zipWith, cosineAccQ]
    norm_num
  have hsimW : (3 : ℝ) / 4 ≤ cosineSimilarity (castVec [1]) (castVec [1]) := by
    by_contra hlt
    push_neg at hlt
    have := (cosineSimLtThreshold_iff [1] [1]).mpr hlt
    rw [hthrW] at this
    exact Bool.false_ne_true this
  have h := (maybeUpdateSummary_c1_amended c1EnvW c1Store "t1" (by decide)
      (by decide)).2.1 c1ActiveRow [1] [1] rfl rfl (by decide) (by decide)
      (by decide) (by decide) hsimW
  ⟨h.1, h.2.1⟩

theorem charsStartsWith_append_left :
    ∀ (pre a b : List Char), pre.length ≤ a.length →
      charsStartsWith (a ++ b) pre = charsStartsWith a pre := by
  intro pre
  induction pre with
  | nil =>
      intro a b _
      simp [charsStartsWith]
  | cons p ps ih =>
      intro a b h
      cases a with
      | nil => simp at h
      | cons x xs =>
          simp only [List.cons_append, charsStartsWith]
          rw [show xs.append b = xs ++ b from rfl, ih xs b (by simpa using h)]

theorem charsStartsWith_append_false :
    ∀ (a pre b : List Char), charsStartsWith a (pre.take a.length) = false →
      charsStartsWith (a ++ b) pre = false := by
  intro a
  induction a with
  | nil =>
      intro pre b h
      simp [charsStartsWith] at h
  | cons x xs ih =>
      intro pre b h
      cases pre with
      | nil => simp [charsStartsWith] at h
      | cons p ps =>
          simp only [List.length_cons, List.take_succ_cons, charsStartsWith,
            Bool.and_eq_false_iff] at h
          simp only [List.cons_append, charsStartsWith, Bool.and_eq_false_iff]
          rcases h with h | h
          · exact Or.inl h
          · exact Or.inr (ih ps b h)

theorem strStartsWith_append_left (lit s pre : String)
    (h : pre.data.length ≤ lit.data.length) :
    strStartsWith (lit ++ s) pre = strStartsWith lit pre := by
  unfold strStartsWith
  rw [String.data_append]
  exact charsStartsWith_append_left pre.data lit.data s.data h

theorem strStartsWith_append_false (lit s pre : String)
    (h : charsStartsWith lit.data (pre.data.take lit.data.length) = false) :
    strStartsWith (lit ++ s) pre = false := by
  unfold strStartsWith
  rw [String.data_append]
  exact charsStartsWith_append_false lit.data pre.data s.data h

theorem pairwise_forall_mem {α : Type} {R : α → α → Prop} :
    ∀ {l : List α}, (∀ a ∈ l, ∀ b ∈ l, R a b) → l.Pairwise R := by
  intro l
  induction l with
  | nil => intro _; exact List.Pairwise.nil
  | cons x xs ih =>
      intro h
      refine List.Pairwise.cons ?_ (ih ?_)
      · intro b hb
        exact h x (by simp) b (by simp [hb])
      · intro a ha b hb
        exact h a (by simp [ha]) b (by simp [hb])

theorem rank_summary_block (s : String) :
    blockRank ("system", "Active summary:\n" ++ s) = 0
    ∧ isSummaryBlock ("system", "Active summary:\n" ++ s) = true
    ∧ isSemanticBlock ("system", "Active summary:\n" ++ s) = false := by
  have h1 : strStartsWith ("Active summary:\n" ++ s) "Active summary:" = true := by
    rw [strStartsWith_append_left _ _ _ (by decide)]
    decide
  have h2 : strStartsWith ("Active summary:\n" ++ s)
      "Relevant long-term memory:" = false :=
    strStartsWith_append_false _ _ _ (by decide)
  refine ⟨?_, ?_, ?_⟩ <;> simp [blockRank, isSummaryBlock, isSemanticBlock, h1, h2]

theorem rank_semantic_block (s : String) :
    blockRank ("system", "Relevant long-term memory:\n" ++ s) = 1
    ∧ isSemanticBlock ("system", "Relevant long-term memory:\n" ++ s) = true
    ∧ isSummaryBlock ("system", "Relevant long-term memory:\n" ++ s) = false := by
  have h1 : strStartsWith ("Relevant long-term memory:\n" ++ s)
      "Active summary:" = false :=
    strStartsWith_append_false _ _ _ (by decide)
  have h2 : strStartsWith ("Relevant long-term memory:\n" ++ s)
      "Relevant long-term memory:" = true := by
    rw [strStartsWith_append_left _ _ _ (by decide)]
    decide
  refine ⟨?_, ?_, ?_⟩ <;> simp [blockRank, isSummaryBlock, isSemanticBlock, h1, h2]

theorem rank_reaction_block (s : String) :
    blockRank ("system", "User reaction signals:\n- " ++ s) = 2
    ∧ isSummaryBlock ("system", "User reaction signals:\n- " ++ s) = false
    ∧ isSemanticBlock ("system", "User reaction signals:\n- " ++ s) = false := by
  have h1 : strStartsWith ("User reaction signals:\n- " ++ s)
      "Active summary:" = false :=
    strStartsWith_append_false _ _ _ (by decide)
  have h2 : strStartsWith ("User reaction signals:\n- " ++ s)
      "Relevant long-term memory:" = false :=
    strStartsWith_append_false _ _ _ (by decide)
  refine ⟨?_, ?_, ?_⟩ <;> simp [blockRank, isSummaryBlock, isSemanticBlock, h1, h2]

theorem rank_history_line (m : String × String)
    (h : (m.1 == "user" || m.1 == "assistant") = true) :
    blockRank m = 3
    ∧ isSummaryBlock m = false
    ∧ isSemanticBlock m = false := by
  have hne : m.1 ≠ "system" := by
    rw [Bool.or_eq_true, beq_iff_eq, beq_iff_eq] at h
    rcases h with h | h <;> rw [h] <;> decide
  have hb : (m.1 == "system") = false := beq_eq_false_iff_ne.mpr hne
  refine ⟨?_, ?_, ?_⟩ <;> simp [blockRank, isSummaryBlock, isSemanticBlock, hne, hb]

theorem summarySegment_cases (env : ApiEnv) (latest : String) :
    summarySegment env latest = []
    ∨ (∃ sv, summaryCueMatch latest = true ∧ apiGetActiveSummary env = some sv ∧
        summarySegment env latest = [("system", "Active summary:\n" ++ sv)]) := by
  unfold summarySegment
  by_cases hc : summaryCueMatch latest = true
  · rw [if_pos hc]
    cases hg : apiGetActiveSummary env with
    | none => left; simp
    | some sv => right; exact ⟨sv, hc, rfl, by simp⟩
  · rw [if_neg hc]
    left
    rfl

theorem semanticSegment_cases (env : ApiEnv) (latest : String) :
    semanticSegment env latest = []
    ∨ (semanticCueMatch latest = true ∧ apiSemanticMemories env 5 ≠ [] ∧
        semanticSegment env latest = [("system", "Relevant long-term memory:\n" ++
          String.intercalate "\n- " (apiSemanticMemories env 5))]) := by
  unfold semanticSegment
  by_cases hc : semanticCueMatch latest = true
  · rw [if_pos hc]
    cases hg : apiSemanticMemories env 5 with
    | nil => left; simp
    | cons x xs =>
        right
        refine ⟨hc, by simp, by simp⟩
  · rw [if_neg hc]
    left
    rfl

theorem reactionSegment_cases (env : ApiEnv) :
    reactionSegment env = []
    ∨ ∃ rf, reactionSegment env = [("system", "User reaction signals:\n- " ++
        String.intercalate "\n- " rf)] := by
  unfold reactionSegment
  cases hg : (match env.reactionUserId with
              | some _ => apiReactionFeedback env 8
              | none => []) with
  | nil => left; simp
  | cons x xs => right; exact ⟨x :: xs, by simp⟩

theorem apiRecentMessages_roles (env : ApiEnv) (limit : Nat) :
    ∀ m ∈ apiRecentMessages env limit,
      (m.1 == "user" || m.1 == "assistant") = true := by
  intro m hm
  unfold apiRecentMessages at hm
  exact (List.mem_filter.mp hm).2

/-- C8 counterexample: a message matching only the "remember" cue set, with
no master items for the owner, yields a context with no semantic-recall block
(here the whole context is empty), refuting the unqualified "yields the
semantic-recall block". -/
theorem buildMemoryContext_counterexample :
    semanticCueMatch "what did i say" = true
    ∧ summaryCueMatch "what did i say" = false
    ∧ buildMemoryContext ⟨some "S", [], [], [], none⟩ "what did i say" none = [] := by
  decide

/-- C8 (amended): context assembly is cue-independent per category: the
active-summary system block appears iff the latest message matches the recap
cue set and an active summary exists; the semantic-recall block appears iff
the message matches the remember cue set AND at least one nonblank master
item exists for the owner; and the context is ordered summary block, then
semantic block, then reaction block, then raw recent-event history. -/
theorem buildMemoryContext_amended (env : ApiEnv) (latest : String)
    (stl : Option Int) :
    ((∃ m ∈ buildMemoryContext env latest stl, isSummaryBlock m = true) ↔
      (summaryCueMatch latest = true ∧ (apiGetActiveSummary env).isSome = true))
    ∧ ((∃ m ∈ buildMemoryContext env latest stl, isSemanticBlock m = true) ↔
      (semanticCueMatch latest = true ∧ apiSemanticMemories env 5 ≠ []))
    ∧ (buildMemoryContext env latest stl).Pairwise
        (fun a b => blockRank a ≤ blockRank b) := by
  have hA : ∀ m ∈ summarySegment env latest,
      blockRank m = 0 ∧ isSummaryBlock m = true ∧ isSemanticBlock m = false := by
    intro m hm
    rcases summarySegment_cases env latest with h | ⟨sv, _, _, h⟩
    · rw [h] at hm; simp at hm
    · rw [h] at hm
      have hmv : m = ("system", "Active summary:\n" ++ sv) := by simpa using hm
      subst hmv
      exact rank_summary_block sv
  have hB : ∀ m ∈ semanticSegment env latest,
      blockRank m = 1 ∧ isSemanticBlock m = true ∧ isSummaryBlock m = false := by
    intro m hm
    rcases semanticSegment_cases env latest with h | ⟨_, _, h⟩
    · rw [h] at hm; simp at hm
    · rw [h] at hm
      have hmv : m = ("system", "Relevant long-term memory:\n" ++
          String.intercalate "\n- " (apiSemanticMemories env 5)) := by simpa using hm
      subst hmv
      exact rank_semantic_block _
  have hC : ∀ m ∈ reactionSegment env,
      blockRank m = 2 ∧ isSummaryBlock m = false ∧ isSemanticBlock m = false := by
    intro m hm
    rcases reactionSegment_cases env with h | ⟨rf, h⟩
    · rw [h] at hm; simp at hm
    · rw [h] at hm
      have hmv : m = ("system", "User reaction signals:\n- " ++
          String.intercalate "\n- " rf) := by simpa using hm
      subst hmv
      exact rank_reaction_block _
  have hD : ∀ m ∈ apiRecentMessages env (normalizeLimit stl 30 200).toNat,
      blockRank m = 3 ∧ isSummaryBlock m = false ∧ isSemanticBlock m = false :=
    fun m hm => rank_history_line m (apiRecentMessages_roles env _ m hm)
  refine ⟨?_, ?_, ?_⟩
  · constructor
    · rintro ⟨m, hm, hsum⟩
      simp only [buildMemoryContext] at hm
      rcases List.mem_append.mp hm with hm | hmD
      rcases List.mem_append.mp hm with hm | hmC
      rcases List.mem_append.mp hm with hmA | hmB
      · rcases summarySegment_cases env latest with h | ⟨sv, hc, hg, h⟩
        · rw [h] at hmA; simp at hmA
        · exact ⟨hc, by rw [hg]; rfl⟩
      · rw [(hB m hmB).2.2] at hsum
        exact absurd hsum (by simp)
      · rw [(hC m hmC).2.1] at hsum
        exact absurd hsum (by simp)
      · rw [(hD m hmD).2.1] at hsum
        exact absurd hsum (by simp)
    · rintro ⟨hc, hsome⟩
      rcases hg : apiGetActiveSummary env with _ | sv
      · rw [hg] at hsome; simp at hsome
      · refine ⟨("system", "Active summary:\n" ++ sv), ?_,
          (rank_summary_block sv).2.1⟩
        simp only [buildMemoryContext]
        apply List.mem_append_left
        apply List.mem_append_left
        apply List.mem_append_left
        unfold summarySegment
        rw [if_pos hc, hg]
        simp
  · constructor
    · rintro ⟨m, hm, hsem⟩
      simp only [buildMemoryContext] at hm
      rcases List.mem_append.mp hm with hm | hmD
      rcases List.mem_append.mp hm with hm | hmC
      rcases List.mem_append.mp hm with hmA | hmB
      · rw [(hA m hmA).2.2] at hsem
        exact absurd hsem (by simp)
      · rcases semanticSegment_cases env latest with h | ⟨hc, hne, h⟩
        · rw [h] at hmB; simp at hmB
        · exact ⟨hc, hne⟩
      · rw [(hC m hmC).2.2] at hsem
        exact absurd hsem (by simp)
      · rw [(hD m hmD).2.2] at hsem
        exact absurd hsem (by simp)
    · rintro ⟨hc, hne⟩
      rcases semanticSegment_cases env latest with h | ⟨_, _, h⟩
      · exfalso
        unfold semanticSegment at h
        rw [if_pos hc] at h
        rcases hg : apiSemanticMemories env 5 with _ | ⟨x, xs⟩
        · exact hne hg
        · rw [hg] at h
          simp at h
      · refine ⟨("system", "Relevant long-term memory:\n" ++
          String.intercalate "\n- " (apiSemanticMemories env 5)), ?_,
          (rank_semantic_block _).2.1⟩
        simp only [buildMemoryContext]
        apply List.mem_append_left
        apply List.mem_append_left
        refine List.mem_append.mpr (Or.inr ?_)
        rw [h]
        simp
  · simp only [buildMemoryContext]
    rw [List.pairwise_append]
    refine ⟨?_, ?_, ?_⟩
    · rw [List.pairwise_append]
      refine ⟨?_, ?_, ?_⟩
      · rw [List.pairwise_append]
        refine ⟨?_, ?_, ?_⟩
        · rcases summarySegment_cases env latest with h | ⟨sv, _, _, h⟩ <;>
            rw [h] <;> simp
        · rcases semanticSegment_cases env latest with h | ⟨_, _, h⟩ <;>
            rw [h] <;> simp
        · intro a ha b hb
          rw [(hA a ha).1]
          omega
      · rcases reactionSegment_cases env with h | ⟨rf, h⟩ <;> rw [h] <;> simp
      · intro a ha b hb
        rcases List.mem_append.mp ha with ha | ha
        · rw [(hA a ha).1, (hC b hb).1]
          omega
        · rw [(hB a ha).1, (hC b hb).1]
          omega
    · apply pairwise_forall_mem
      intro a ha b hb
      rw [(hD a ha).1, (hD b hb).1]
    · intro a ha b hb
      have hb3 := (hD b hb).1
      rcases List.mem_append.mp ha with ha | ha
      · rcases List.mem_append.mp ha with ha | ha
        · rw [(hA a ha).1, hb3]
          omega
        · rw [(hB a ha).1, hb3]
          omega
      · rw [(hC a ha).1, hb3]
        omega

/-- C8 witness: a recap-only message with an active summary yields the
summary block and no semantic block. -/
theorem buildMemoryContext_amended_witness :
    ((∃ m ∈ buildMemoryContext ⟨some "S", ["fact"], [], [("user", "hi")], none⟩
        "give me a recap" none, isSummaryBlock m = true) ↔
      (summaryCueMatch "give me a recap" = true ∧
        (apiGetActiveSummary ⟨some "S", ["fact"], [], [("user", "hi")], none⟩).isSome
          = true)) :=
  (buildMemoryContext_amended ⟨some "S", ["fact"], [], [("user", "hi")], none⟩
    "give me a recap" none).1

/-- C3 witness: an upsert with `embed=True` whose embedding call failed
(`none`) leaves the stored vector `[1]` of the matched row intact. -/
theorem upsertMasterItem_preserves_embedding_witness :
    c3RowUpdated.embedding = some [1] ∧ c3RowUpdated.reinforcement_count = 3 + 1 :=
  have h := (upsertMasterItem_preserves_embedding ⟨[c3Row], 6⟩ 9 none "u"
      "PROFILE" " LIKES TEA " "deprecated" "low" 2 true [("k", "v")]
      "PROFILE" "deprecated" "low" 5 ⟨[c3RowUpdated], 6⟩ c3Row [1]
      (by simp) (by decide) (by decide) rfl rfl rfl rfl rfl rfl
      rfl).2.1 c3RowUpdated (by simp) rfl
  ⟨h.1, h.2.2.2.2.1⟩

end CortexLTM
